import Mathlib

/-!
Verification development for the cf-proxy edge gateway.

The gateway source consists of three JavaScript variants of the same worker:
`src/unnamed/part_000` (called variant `V0` below), `src/unnamed/part_001`
which holds two workers separated by a document separator (the first is
variant `V1`, the second - the one routing `/v2/token` and using regex
challenge parsing - is variant `V1b`), and `src/src/index.js` (variant `Src`).

The embedding below is a shallow translation of these workers into Lean:
strings are Lean `String` (operated on through their `.data` character
lists, matching JavaScript string semantics for the ASCII data involved),
JavaScript `Headers` objects are association lists with case-insensitive
name handling, and the asynchronous `fetch` builtin is an explicit oracle
parameter `Fetch : OutRequest → HttpResponse` threaded through the
handlers; every `await fetch(...)` in the source becomes one application
of the oracle to the request value the source constructs.
-/

namespace CfProxy

/-! ## JavaScript string primitives -/

/-- Boolean prefix test on character lists (split on the first argument,
then on the second, so that the equations reduce definitionally). -/
def isPfxOf : List Char → List Char → Bool
  | [], _ => true
  | a :: as, b =>
    match b with
    | [] => false
    | c :: cs => a == c && isPfxOf as cs

/-- JavaScript `s.startsWith(p)`. -/
def jsStartsWith (s p : String) : Bool := isPfxOf p.data s.data

/-- JavaScript `s.length` (UTF-16 units; all embedded data is ASCII, where
this coincides with the character count). -/
def strLen (s : String) : Nat := s.data.length

/-- JavaScript `s.slice(n)` for a non-negative `n`. -/
def jsSliceFrom (s : String) (n : Nat) : String := String.mk (s.data.drop n)

/-- JavaScript `s.substring(a, b)` for `0 ≤ a ≤ b`. -/
def jsSubstring (s : String) (a b : Nat) : String := String.mk ((s.data.take b).drop a)

/-- Occurrence test used to model JavaScript `s.includes(sub)`. -/
def hasSub (sub : List Char) : List Char → Bool
  | [] => sub.isEmpty
  | c :: rest => isPfxOf sub (c :: rest) || hasSub sub rest

/-- JavaScript `s.includes(sub)`. -/
def jsIncludes (s sub : String) : Bool := hasSub sub.data s.data

/-- Split a character list at every occurrence of a single-character
separator (JavaScript `s.split(sep)` for a one-character `sep`). -/
def splitCharL (sep : Char) : List Char → List (List Char)
  | [] => [[]]
  | c :: rest =>
    if c = sep then
      [] :: splitCharL sep rest
    else
      match splitCharL sep rest with
      | h :: t => (c :: h) :: t
      | [] => [[c]]

/-- JavaScript `s.split(sep)` for a one-character separator. -/
def jsSplitChar (sep : Char) (s : String) : List String :=
  (splitCharL sep s.data).map String.mk

/-- The part of a character list before the first occurrence of `sep`
(the whole list when `sep` does not occur); this models the JavaScript
idiom `s.split(sep)[0]` for a non-empty separator string. -/
def firstSplitL (sep : List Char) : List Char → List Char
  | [] => []
  | c :: rest => if isPfxOf sep (c :: rest) then [] else c :: firstSplitL sep rest

/-- JavaScript `s.split(sep)[0]` for a non-empty separator string. -/
def splitFirst (sep s : String) : String := String.mk (firstSplitL sep.data s.data)

/-- JavaScript whitespace test (the characters relevant to header data). -/
def isJsSpace (c : Char) : Bool := c = ' ' || c = '\t' || c = '\n' || c = '\r'

/-- JavaScript `s.trim()`. -/
def jsTrim (s : String) : String :=
  String.mk (((s.data.dropWhile isJsSpace).reverse.dropWhile isJsSpace).reverse)

/-- JavaScript `s.toLowerCase()` (ASCII lowering, as used on header names). -/
def lowerStr (s : String) : String := String.mk (s.data.map Char.toLower)

/-- JavaScript string coercion of a nullable string, as performed by
template literals and `encodeURIComponent`: `null` becomes `"null"`. -/
def jsNullStr : Option String → String
  | none => "null"
  | some s => s

/-! ## Headers, requests and responses -/

/-- A JavaScript `Headers` object: an association list of name/value
pairs; lookups and updates compare names case-insensitively. -/
abbrev HeaderList := List (String × String)

/-- `headers.get(name)` (case-insensitive). -/
def hGet (hs : HeaderList) (name : String) : Option String :=
  (hs.find? (fun p => lowerStr p.1 == lowerStr name)).map (fun p => p.2)

/-- `headers.set(name, value)` (case-insensitive replacement). -/
def hSet (hs : HeaderList) (name val : String) : HeaderList :=
  hs.filter (fun p => !(lowerStr p.1 == lowerStr name)) ++ [(name, val)]

/-- `headers.has(name)`. -/
def hHas (hs : HeaderList) (name : String) : Bool := (hGet hs name).isSome

/-- `headers.delete(name)`. -/
def hDelete (hs : HeaderList) (name : String) : HeaderList :=
  hs.filter (fun p => !(lowerStr p.1 == lowerStr name))

/-- An HTTP response as the workers construct and return them. -/
structure HttpResponse where
  status : Nat
  statusText : String := ""
  headers : HeaderList := []
  body : String := ""
deriving Repr, DecidableEq

/-- A request issued by the gateway through `fetch`: the URL string, the
method, the headers, the redirect policy and the forwarded body. -/
structure OutRequest where
  url : String
  method : String := "GET"
  headers : HeaderList := []
  redirect : String := "follow"
  body : Option String := none
deriving Repr, DecidableEq

/-- The `fetch` oracle: what the upstream network answers to each request
the gateway issues. -/
abbrev Fetch := OutRequest → HttpResponse

/-- The inbound client request, pre-parsed the way the workers parse it
with `new URL(request.url)`: hostname, pathname, search string, the
search parameters as an association list, plus method, headers and body. -/
structure InRequest where
  hostname : String
  pathname : String
  search : String := ""
  query : List (String × String) := []
  method : String := "GET"
  headers : HeaderList := []
  body : Option String := none
deriving Repr, DecidableEq

/-- `url.searchParams.get(name)` (first match, or null). -/
def qGet (q : List (String × String)) (name : String) : Option String :=
  (q.find? (fun p => p.1 == name)).map (fun p => p.2)

/-! ## Static configuration (V0 / V1 tables) -/

def DOCKER_HUB_URL : String := "https://registry-1.docker.io"

def DEFAULT_HEADERS : List String := ["accept", "content-type", "authorization", "user-agent"]

/-- `registryConfigs` of V0/V1: key and base URL, in insertion order
(`Object.keys` order). -/
def registryConfigs : List (String × String) :=
  [ ("register/docker/elastic", "https://docker.elastic.co")
  , ("register/docker/hub", DOCKER_HUB_URL)
  , ("register/google", "https://gcr.io")
  , ("register/github", "https://ghcr.io")
  , ("register/k8s", "https://registry.k8s.io")
  , ("register/microsoft", "https://mcr.microsoft.com")
  , ("register/nvidia", "https://nvcr.io")
  , ("register/quay", "https://quay.io")
  , ("register/ollama", "https://registry.ollama.ai") ]

def registryConfigKeys : List String := registryConfigs.map (fun p => p.1)

def registryBaseUrl (k : String) : String :=
  ((registryConfigs.find? (fun p => p.1 == k)).map (fun p => p.2)).getD ""

/-- `aiConfigs` of V0/V1: key, base URL and the optional extra
`allowedHeaders` list (empty when the source omits the field). -/
def aiConfigs : List (String × String × List String) :=
  [ ("/ai/discord", "https://discord.com/api", [])
  , ("/ai/telegram", "https://api.telegram.org", [])
  , ("/ai/openai", "https://api.openai.com", [])
  , ("/ai/claude", "https://api.anthropic.com", ["anthropic-version"])
  , ("/ai/gemini", "https://generativelanguage.googleapis.com", ["x-goog-api-key"])
  , ("/ai/meta", "https://www.meta.ai/api", [])
  , ("/ai/groq", "https://api.groq.com/openai", [])
  , ("/ai/xai", "https://api.x.ai", ["x-api-key"])
  , ("/ai/cohere", "https://api.cohere.ai", [])
  , ("/ai/huggingface", "https://api.huggingface.co", [])
  , ("/ai/together", "https://api.together.ai", [])
  , ("/ai/novita", "https://api.novita.ai", [])
  , ("/ai/portkey", "https://api.portkey.ai", [])
  , ("/ai/fireworks", "https://api.fireworks.ai", [])
  , ("/ai/openrouter", "https://openrouter.ai/api", []) ]

def aiConfigKeys : List String := aiConfigs.map (fun p => p.1)

def aiBaseUrl (k : String) : String :=
  ((aiConfigs.find? (fun p => p.1 == k)).map (fun p => p.2.1)).getD ""

def aiAllowedHeaders (k : String) : List String :=
  ((aiConfigs.find? (fun p => p.1 == k)).map (fun p => p.2.2)).getD []

/-! ## The prefix router (V0/V1 `extractPrefixAndRest`) -/

/-- The per-prefix match condition of V0/V1 `extractPrefixAndRest`: the
path starts with `pfx + "/"` or equals `pfx` (full segment boundary). -/
def segMatch (pathSegment pfx : String) : Bool :=
  jsStartsWith pathSegment (pfx ++ "/") || pathSegment == pfx

/-- The `bestMatch` accumulation loop of V0/V1 `extractPrefixAndRest`:
keep the first match, replace it only by a strictly longer one. -/
def bestMatchStep (pathSegment : String) (best : Option String) (pfx : String) : Option String :=
  if segMatch pathSegment pfx then
    match best with
    | none => some pfx
    | some b => if strLen pfx > strLen b then some pfx else some b
  else best

/-- V0/V1 `extractPrefixAndRest(pathSegment, prefixes)`: longest
segment-bounded matching prefix, with the remainder of the path;
`(null, pathSegment)` when nothing matches. -/
def extractPrefixAndRest (pathSegment : String) (prefixes : List String) :
    Option String × String :=
  match prefixes.foldl (bestMatchStep pathSegment) none with
  | some b => (some b, jsSliceFrom pathSegment (strLen b))
  | none => (none, pathSegment)

/-! ## Src variant configuration and router (`src/src/index.js`) -/

/-- `apiMapping` of the Src variant (`mergeConfigs([aiApis, registryApis])`):
AI keys first, then registry keys, each with base URL and extra allowed
headers. -/
def apiMappingSrc : List (String × String × List String) :=
  [ ("/ai/discord", "https://discord.com/api", [])
  , ("/ai/telegram", "https://api.telegram.org", [])
  , ("/ai/openai", "https://api.openai.com", [])
  , ("/ai/claude", "https://api.anthropic.com", ["anthropic-version"])
  , ("/ai/gemini", "https://generativelanguage.googleapis.com", ["x-goog-api-key"])
  , ("/ai/meta", "https://www.meta.ai/api", [])
  , ("/ai/groq", "https://api.groq.com/openai", [])
  , ("/ai/xai", "https://api.x.ai", ["x-api-key"])
  , ("/ai/cohere", "https://api.cohere.ai", [])
  , ("/ai/huggingface", "https://api.huggingface.co", [])
  , ("/ai/together", "https://api.together.ai", [])
  , ("/ai/novita", "https://api.novita.ai", [])
  , ("/ai/portkey", "https://api.portkey.ai", [])
  , ("/ai/fireworks", "https://api.fireworks.ai", [])
  , ("/ai/openrouter", "https://openrouter.ai/api", [])
  , ("/registry/docker/elastic", "https://docker.elastic.co", [])
  , ("/registry/docker/hub", "https://docker.io", [])
  , ("/registry/google", "https://gcr.io", [])
  , ("/registry/github", "https://ghcr.io", [])
  , ("/registry/k8s", "https://registry.k8s.io", [])
  , ("/registry/microsoft", "https://mcr.microsoft.com", [])
  , ("/registry/nvidia", "https://nvcr.io", [])
  , ("/registry/quay", "https://quay.io", [])
  , ("/registry/ollama", "https://registry.ollama.ai", []) ]

def apiMappingSrcKeys : List String := apiMappingSrc.map (fun p => p.1)

/-- Src `extractPrefixAndRest(pathname, prefixes)`: after normalizing a
leading slash, return the FIRST prefix such that
`normalizedPath.startsWith(prefix)` - a bare string-prefix test with no
segment-boundary requirement - together with the remainder; `[null, null]`
when nothing matches. -/
def extractPrefixAndRestSrc (pathname : String) (prefixes : List String) :
    Option (String × String) :=
  let normalizedPath := if jsStartsWith pathname "/" then pathname else "/" ++ pathname
  match prefixes.find? (fun pfx => jsStartsWith normalizedPath pfx) with
  | some pfx => some (pfx, jsSliceFrom normalizedPath (strLen pfx))
  | none => none

/-! ## Modelled JavaScript builtins: encodeURIComponent -/

def hexDigitChar (n : Nat) : Char := if n < 10 then Char.ofNat (48 + n) else Char.ofNat (55 + n)

/-- UTF-8 bytes of a code point. -/
def utf8BytesOf (n : Nat) : List Nat :=
  if n < 128 then [n]
  else if n < 2048 then [192 + n / 64, 128 + n % 64]
  else if n < 65536 then [224 + n / 4096, 128 + (n / 64) % 64, 128 + n % 64]
  else [240 + n / 262144, 128 + (n / 4096) % 64, 128 + (n / 64) % 64, 128 + n % 64]

def pctEncodeByte (b : Nat) : List Char := ['%', hexDigitChar (b / 16), hexDigitChar (b % 16)]

/-- The characters `encodeURIComponent` leaves intact: alphanumerics and
the marks (dash, underscore, dot, bang, tilde, star, apostrophe - code
point 39 - and parentheses). -/
def uriUnreserved (c : Char) : Bool :=
  c.isAlphanum || c ∈ ['-', '_', '.', '!', '~', '*', '(', ')'] || c.toNat == 39

def encodeURIComponentChar (c : Char) : List Char :=
  if uriUnreserved c then [c] else ((utf8BytesOf c.toNat).map pctEncodeByte).foldr (fun a b => a ++ b) []

/-- JavaScript `encodeURIComponent` (percent-encoding of UTF-8 bytes,
uppercase hex). -/
def encodeURIComponent (s : String) : String :=
  String.mk ((s.data.map encodeURIComponentChar).foldr (fun a b => a ++ b) [])

/-- Truthiness of a nullable JavaScript string: `null` and the empty
string are falsy. -/
def jsTruthy : Option String → Bool
  | none => false
  | some s => !(s == "")

/-! ## V0 worker (`src/unnamed/part_000`) -/

/-- V0/V1 `addSecurityHeaders(headers)`. -/
def addSecurityHeaders (hs : HeaderList) : HeaderList :=
  hSet (hSet (hSet hs "X-Content-Type-Options" "nosniff") "X-Frame-Options" "DENY") "Referrer-Policy" "no-referrer"

/-- The `for (const part of parts)` loop of V0 `responseUnauthorized`:
fold the comma-separated challenge parts into the `service` and `scope`
values and the other parameters, starting from the defaults
`registry.docker.io` and `repository:*:pull`. -/
def parseChallengeParts (parts : List String) : String × String × List String :=
  parts.foldl (fun acc part =>
    let t := jsTrim part
    if jsStartsWith t "realm=\"" then acc
    else if jsStartsWith t "service=\"" then
      (jsSubstring t (strLen "service=\"") (strLen t - 1), acc.2.1, acc.2.2)
    else if jsStartsWith t "scope=\"" then
      (acc.1, jsSubstring t (strLen "scope=\"") (strLen t - 1), acc.2.2)
    else (acc.1, acc.2.1, acc.2.2 ++ [t]))
    ("registry.docker.io", "repository:*:pull", [])

/-- The repository part of an image path as V0 computes it:
`path.split('/manifests/')[0].split('/blobs/')[0]`. -/
def hubRepoName (finalImagePath : String) : String :=
  splitFirst "/blobs/" (splitFirst "/manifests/" finalImagePath)

/-- The official-image test of V0 `handleApiRequest` line 99: the
repository part is non-empty and contains neither `/` nor `:`. -/
def officialImageCond (repoName : String) : Bool :=
  !(repoName == "") && !(jsIncludes repoName "/") && !(jsIncludes repoName ":")

/-- The Docker Hub official-image normalization of V0 `handleApiRequest`
(lines 95-102): prepend `library/` when the repository part is non-empty
and contains neither `/` nor `:`. -/
def normalizeDockerHubPath (finalImagePath : String) : String :=
  let repoName := hubRepoName finalImagePath
  if officialImageCond repoName then
    "library/" ++ finalImagePath
  else finalImagePath

/-- The `newAuthHeader` construction of V0 `responseUnauthorized`
(lines 309-312): the rewritten Bearer challenge, with the collected
other parameters appended when present. -/
def challengeHeader000 (newRealm service scope : String) (otherParams : List String) : String :=
  let newAuthHeader :=
    "Bearer realm=\"" ++ newRealm ++ "\",service=\"" ++ service ++ "\",scope=\"" ++ scope ++ "\""
  if otherParams.length > 0 then newAuthHeader ++ "," ++ String.intercalate "," otherParams
  else newAuthHeader

/-- V0 `responseUnauthorized(url, authHeader, requestedImagePath)`. -/
def responseUnauthorized000 (hostname : String) (authHeader : Option String)
    (requestedImagePath : Option String) : HttpResponse :=
  let headers0 := hSet ([] : HeaderList) "Content-Type" "application/json"
  let newRealm := "https://" ++ hostname ++ "/v2/token"
  let parsed :=
    if jsTruthy authHeader then parseChallengeParts (jsSplitChar ',' (jsNullStr authHeader))
    else ("registry.docker.io", "repository:*:pull", ([] : List String))
  let service := parsed.1
  let scope := parsed.2.1
  let otherParams := parsed.2.2
  let infer :=
    (!(jsTruthy authHeader) || !(jsIncludes (jsNullStr authHeader) "scope=")
      || scope == "repository:*:pull") && jsTruthy requestedImagePath
  let scope2 :=
    if infer then
      let repoName := hubRepoName (jsNullStr requestedImagePath)
      let repoName2 :=
        if service == "registry.docker.io" && !(repoName == "")
            && !(jsIncludes repoName "/") && !(jsIncludes repoName ":") then
          "library/" ++ repoName
        else repoName
      if !(repoName2 == "") then "repository:" ++ repoName2 ++ ":pull" else scope
    else scope
  { status := 401
  , headers := hSet headers0 "WWW-Authenticate" (challengeHeader000 newRealm service scope2 otherParams)
  , body := "\x7b\"error\":\"Unauthorized\"\x7d" }

/-- Strip one leading slash (the `startsWith('/') ? slice(1) : ...` idiom). -/
def cleanSlash (s : String) : String := if jsStartsWith s "/" then jsSliceFrom s 1 else s

/-- The `/v2/` ping request V0/V1 issue upstream. -/
def pingReq (req : InRequest) : OutRequest :=
  { url := DOCKER_HUB_URL ++ "/v2/", method := req.method, headers := req.headers
  , redirect := "manual" }

/-- The upstream registry request V0 `handleRegistryRequest` issues. -/
def registryForwardReq (req : InRequest) (baseUrl imagePath search : String) : OutRequest :=
  { url := baseUrl ++ "/v2/" ++ cleanSlash imagePath ++ search
  , method := req.method, headers := req.headers, redirect := "manual", body := req.body }

/-- The follow-up request for a blob redirect: a bare GET to the
`Location` URL with redirects followed and no headers. -/
def followRedirectReq (location : String) : OutRequest :=
  { url := location, method := "GET", headers := [], redirect := "follow" }

/-- Pass an upstream response through with the security headers added
(the final `new Response(...)` block the forwarding handlers share). -/
def passThroughSecured (resp : HttpResponse) : HttpResponse :=
  { status := resp.status, statusText := resp.statusText
  , headers := addSecurityHeaders resp.headers, body := resp.body }

/-- V0 `handleRegistryRequest(request, baseUrl, imagePath, search)`. -/
def handleRegistryRequest000 (fetchFn : Fetch) (req : InRequest)
    (baseUrl imagePath search : String) : HttpResponse :=
  let cleanedImagePath := cleanSlash imagePath
  let isDockerHub := baseUrl == DOCKER_HUB_URL
  let response := fetchFn (registryForwardReq req baseUrl imagePath search)
  if response.status == 401 then
    responseUnauthorized000 req.hostname (hGet response.headers "Www-Authenticate")
      (some cleanedImagePath)
  else if isDockerHub && (response.status == 307 || response.status == 302) then
    match hGet response.headers "Location" with
    | some location =>
      if !(location == "") then fetchFn (followRedirectReq location)
      else passThroughSecured response
    | none => passThroughSecured response
  else passThroughSecured response

/-- The header filter loop of V0 `handleGenericApiRequest`: keep exactly
the headers whose lowercased name is in the default set united with the
per-target allow-list. -/
def filterHeaders000 (allowedHeaders : List String) (hs : HeaderList) : HeaderList :=
  let combinedAllowedHeaders := DEFAULT_HEADERS ++ allowedHeaders
  hs.foldl (fun acc kv =>
    if combinedAllowedHeaders.contains (lowerStr kv.1) then hSet acc kv.1 kv.2 else acc) []

/-- The upstream request V0 `handleGenericApiRequest` issues. -/
def genericForwardReq (req : InRequest) (baseUrl restPath search : String)
    (allowedHeaders : List String) : OutRequest :=
  { url := baseUrl ++ (if jsStartsWith restPath "/" then restPath else "/" ++ restPath) ++ search
  , method := req.method, headers := filterHeaders000 allowedHeaders req.headers
  , body := req.body }

/-- V0 `handleGenericApiRequest(request, baseUrl, restPath, search, allowedHeaders)`. -/
def handleGenericApiRequest000 (fetchFn : Fetch) (req : InRequest)
    (baseUrl restPath search : String) (allowedHeaders : List String) : HttpResponse :=
  passThroughSecured (fetchFn (genericForwardReq req baseUrl restPath search allowedHeaders))

/-- V0 `handleApiRequest(request)`. -/
def handleApiRequest000 (fetchFn : Fetch) (req : InRequest) : HttpResponse :=
  if req.pathname == "/" || req.pathname == "/index.html" then
    { status := 200, headers := [("Content-Type", "text/html; charset=utf-8")]
    , body := "Service is running!" }
  else if req.pathname == "/robots.txt" then
    { status := 200, headers := [("Content-Type", "text/plain; charset=utf-8")]
    , body := "User-agent: *\nDisallow: /" }
  else if jsStartsWith req.pathname "/v2/" then
    let v2Path := jsSliceFrom req.pathname 4
    if v2Path == "" || v2Path == "/" then
      let pingResponse := fetchFn (pingReq req)
      if pingResponse.status == 401 then
        responseUnauthorized000 req.hostname (hGet pingResponse.headers "Www-Authenticate") none
      else pingResponse
    else
      let pr := extractPrefixAndRest v2Path registryConfigKeys
      let targetBaseUrl :=
        match pr.1 with
        | some registryPfx => registryBaseUrl registryPfx
        | none => DOCKER_HUB_URL
      let finalImagePath :=
        match pr.1 with
        | some _ => pr.2
        | none => v2Path
      let finalImagePath2 :=
        if targetBaseUrl == DOCKER_HUB_URL then normalizeDockerHubPath finalImagePath
        else finalImagePath
      handleRegistryRequest000 fetchFn req targetBaseUrl (cleanSlash finalImagePath2) req.search
  else
    match extractPrefixAndRest req.pathname aiConfigKeys with
    | (some aiPfx, restPath) =>
      handleGenericApiRequest000 fetchFn req (aiBaseUrl aiPfx) restPath req.search
        (aiAllowedHeaders aiPfx)
    | (none, _) =>
      { status := 404, headers := [("Content-Type", "application/json")]
      , body := "\x7b\"error\":\"Not Found\"\x7d" }

/-- The upstream token URL V0 `handleTokenRequest` builds (the
URL-encoded `service` and `scope`, with null coerced to the string
`null` by `encodeURIComponent`). -/
def tokenUrl000 (service scope : Option String) : String :=
  "https://auth.docker.io/token?service=" ++ encodeURIComponent (jsNullStr service)
    ++ "&scope=" ++ encodeURIComponent (jsNullStr scope)

/-- The upstream token request V0 `handleTokenRequest` issues: all client
headers minus `host`, default GET method. -/
def tokenOutReq000 (req : InRequest) : OutRequest :=
  { url := tokenUrl000 (qGet req.query "service") (qGet req.query "scope")
  , method := "GET", headers := hDelete req.headers "host" }

/-- V0 `handleTokenRequest(request)`: relay the upstream token response
as-is. -/
def handleTokenRequest000 (fetchFn : Fetch) (req : InRequest) : HttpResponse :=
  fetchFn (tokenOutReq000 req)

/-- V0 `handleRequest(request)`: route `/v2/token` to the token handler,
everything else to the API handler. -/
def handleRequest000 (fetchFn : Fetch) (req : InRequest) : HttpResponse :=
  if req.pathname == "/v2/token" then handleTokenRequest000 fetchFn req
  else handleApiRequest000 fetchFn req

/-! ## V1 worker (`src/unnamed/part_001`, first document) -/

/-- The greedy run of the regex body of V1 `parseAuthenticate`,
`(?:\\.|[^"\\])*`: consume escape pairs and characters other than quote
and backslash, returning the run and the rest. -/
def matchRun : List Char → List Char × List Char
  | [] => ([], [])
  | '\\' :: c :: rest =>
    let r := matchRun rest
    ('\\' :: c :: r.1, r.2)
  | ['\\'] => ([], ['\\'])
  | c :: rest =>
    if c = '"' || c = '\\' then ([], c :: rest)
    else
      let r := matchRun rest
      (c :: r.1, r.2)

/-- The two characters immediately before the new scan position after a
non-empty run has been consumed. -/
def lastTwoAfter (p1 : Option Char) (run : List Char) : Option Char × Option Char :=
  match run.reverse with
  | [] => (none, p1)
  | a :: rest =>
    match rest with
    | b :: _ => (some b, some a)
    | [] => (p1, some a)

/-- Global scan of V1 `parseAuthenticate`'s regex
`(?<=\=")(?:\\.|[^"\\])*(?=")`: at every position whose two preceding
characters are `="`, match the greedy run and require a following quote;
collect all matches left to right, advancing past each match (one
position for an empty match, as the JavaScript engine does). -/
def scanMatchesAux : Nat → Option Char → Option Char → List Char → List (List Char)
  | 0, _, _, _ => []
  | _ + 1, _, _, [] => []
  | fuel + 1, p2, p1, c :: rest =>
    if p2 == some '=' && p1 == some '"' then
      let r := matchRun (c :: rest)
      match r.2 with
      | '"' :: _ =>
        if r.1.isEmpty then r.1 :: scanMatchesAux fuel p1 (some c) rest
        else
          let nxt := lastTwoAfter p1 r.1
          r.1 :: scanMatchesAux fuel nxt.1 nxt.2 r.2
      | _ => scanMatchesAux fuel p1 (some c) rest
    else scanMatchesAux fuel p1 (some c) rest

/-- V1 `parseAuthenticate(authenticateStr)`: the first two quoted values
after `="` are realm and service; fewer than two matches is the thrown
`invalid Www-Authenticate Header` error, modelled as `none`. -/
def parseAuthenticate001 (authenticateStr : String) : Option (String × String) :=
  match scanMatchesAux (authenticateStr.data.length + 1) none none authenticateStr.data with
  | r :: sv :: _ => some (String.mk r, String.mk sv)
  | _ => none

/-- A WHATWG URL as far as the token relay uses it: the part before `?`
and the search parameters. -/
structure JsUrl where
  base : String
  params : List (String × String)
deriving Repr, DecidableEq

def parseQueryParams (s : List Char) : List (String × String) :=
  (splitCharL '&' s).map (fun kv =>
    let k := firstSplitL ['='] kv
    (String.mk k, String.mk (kv.drop (k.length + 1))))

/-- `new URL(s)` as far as the token relay uses it (absolute URLs only;
the query string, when present, is parsed into the parameter list). -/
def urlOfString (s : String) : JsUrl :=
  let base := firstSplitL ['?'] s.data
  if base.length == s.data.length then { base := s, params := [] }
  else { base := String.mk base, params := parseQueryParams (s.data.drop (base.length + 1)) }

/-- `url.searchParams.set(k, v)`: replace the first occurrence of `k`,
drop later duplicates, append when absent. -/
def paramsSet : List (String × String) → String → String → List (String × String)
  | [], k, v => [(k, v)]
  | p :: rest, k, v =>
    if p.1 == k then (k, v) :: rest.filter (fun q => !(q.1 == k))
    else p :: paramsSet rest k v

/-- `params.get(k)` on a parameter list. -/
def paramsGet (ps : List (String × String)) (k : String) : Option String :=
  (ps.find? (fun p => p.1 == k)).map (fun p => p.2)

/-- Characters serialized verbatim by `application/x-www-form-urlencoded`. -/
def formSafeChar (c : Char) : Bool := c.isAlphanum || c ∈ ['*', '-', '.', '_']

def formEncodeChar (c : Char) : List Char :=
  if formSafeChar c then [c]
  else if c = ' ' then ['+']
  else ((utf8BytesOf c.toNat).map pctEncodeByte).foldr (fun a b => a ++ b) []

def formEncode (s : String) : String :=
  String.mk ((s.data.map formEncodeChar).foldr (fun a b => a ++ b) [])

/-- Serialization of a `JsUrl` back to the string `fetch` receives. -/
def serializeJsUrl (u : JsUrl) : String :=
  if u.params.isEmpty then u.base
  else u.base ++ "?" ++ String.intercalate "&"
    (u.params.map (fun p => formEncode p.1 ++ "=" ++ formEncode p.2))

/-- The URL construction of V1 `fetchToken`: start from the realm, set
`service` when non-empty and `scope` when truthy. -/
def tokenUrl001 (realm service : String) (scope : Option String) : JsUrl :=
  let u := urlOfString realm
  let u1 :=
    if strLen service > 0 then { u with params := paramsSet u.params "service" service } else u
  if jsTruthy scope then { u1 with params := paramsSet u1.params "scope" (jsNullStr scope) }
  else u1

/-- The token request V1 `fetchToken` issues: GET, with only the relayed
`Authorization` header when the client sent one. -/
def fetchTokenReq (realm service : String) (scope authorization : Option String) : OutRequest :=
  { url := serializeJsUrl (tokenUrl001 realm service scope)
  , method := "GET"
  , headers :=
      if jsTruthy authorization then hSet [] "Authorization" (jsNullStr authorization) else [] }

/-- V1 `fetchToken(wwwAuthenticate, scope, authorization)`. -/
def fetchToken001 (fetchFn : Fetch) (realm service : String)
    (scope authorization : Option String) : HttpResponse :=
  fetchFn (fetchTokenReq realm service scope authorization)

/-- The unauthenticated discovery probe V1 `handleAuthRequest` sends to
the upstream ping endpoint. -/
def authPingReq : OutRequest :=
  { url := DOCKER_HUB_URL ++ "/v2/", method := "GET", redirect := "manual" }

/-- The single-segment scope correction of V1 `handleAuthRequest`:
`repository:busybox:pull` becomes `repository:library/busybox:pull`. -/
def rewriteScope001 (scope : String) : String :=
  let scopeParts := jsSplitChar ':' scope
  if scopeParts.length == 3 && !(jsIncludes (scopeParts.getD 1 "") "/") then
    String.intercalate ":"
      [scopeParts.getD 0 "", "library/" ++ scopeParts.getD 1 "", scopeParts.getD 2 ""]
  else scope

/-- V1 `handleAuthRequest(request)` (the `/v2/auth` token relay). The
thrown `invalid Www-Authenticate Header` error is modelled as `none`;
the source has no catch around it. -/
def handleAuthRequest001 (fetchFn : Fetch) (req : InRequest) : Option HttpResponse :=
  let service0 := qGet req.query "service"
  let scope0 := qGet req.query "scope"
  let authorization := hGet req.headers "Authorization"
  let service1 :=
    if service0 == some "cloudflare-docker-proxy" then some "registry.docker.io" else service0
  let scope1 :=
    if jsTruthy scope0 && service1 == some "registry.docker.io" then
      some (rewriteScope001 (jsNullStr scope0))
    else scope0
  let pingResp := fetchFn authPingReq
  let authenticateStr := hGet pingResp.headers "WWW-Authenticate"
  if !(jsTruthy authenticateStr) then
    some { status := 500
         , body := "\x7b\"error\":\"Failed to get upstream authentication challenge\"\x7d" }
  else
    match parseAuthenticate001 (jsNullStr authenticateStr) with
    | none => none
    | some (realm, service2) => some (fetchToken001 fetchFn realm service2 scope1 authorization)

/-- The guard of the V1 official-image 301 redirect (`handleApiRequest`
lines 99-114): at least two path parts, and a leading part without dot
or colon that is not already `library`. -/
def shouldRedirectLibrary001 (finalImagePath : String) : Bool :=
  let pathParts := jsSplitChar '/' finalImagePath
  decide (pathParts.length ≥ 2) && !(jsIncludes (pathParts.getD 0 "") ".")
    && !(jsIncludes (pathParts.getD 0 "") ":") && !(pathParts.getD 0 "" == "library")

/-! ## V1b worker (`src/unnamed/part_001`, second document) -/

/-- First match of the regexes `realm="([^"]+)"` / `service="([^"]+)"` of
V1b `responseUnauthorized`: scan left to right for the key immediately
followed by a non-empty quote-free capture and a closing quote. -/
def reFindValueL (key : List Char) : List Char → Option (List Char)
  | [] => none
  | c :: rest =>
    if isPfxOf key (c :: rest) then
      let tail0 := (c :: rest).drop key.length
      let cap := tail0.takeWhile (fun x => !(x = '"'))
      match tail0.drop cap.length with
      | '"' :: _ => if cap.length > 0 then some cap else reFindValueL key rest
      | _ => reFindValueL key rest
    else reFindValueL key rest

/-- The rewritten challenge header of V1b `responseUnauthorized`. -/
def challengeHeader001b (hostname service : String) : String :=
  "Bearer realm=\"" ++ ("https://" ++ hostname ++ "/v2/token") ++ "\",service=\""
    ++ service ++ "\""

/-- V1b `responseUnauthorized(url, authHeader)`: rewrite the realm to the
gateway token endpoint when both regexes match, else fall back to the
defaulted challenge. -/
def responseUnauthorized001b (hostname : String) (authHeader : Option String) : HttpResponse :=
  let rewritten :=
    if jsTruthy authHeader then
      match reFindValueL "realm=\"".data (jsNullStr authHeader).data,
            reFindValueL "service=\"".data (jsNullStr authHeader).data with
      | some _, some sv =>
        some { status := 401
             , headers :=
                 [("Www-Authenticate", challengeHeader001b hostname (String.mk sv))
                 , ("Content-Type", "application/json")]
             , body := "\x7b\"error\":\"Unauthorized\"\x7d" }
      | _, _ => none
    else none
  match rewritten with
  | some r => r
  | none =>
    { status := 401
    , headers :=
        [("Www-Authenticate", challengeHeader001b hostname "registry.docker.io")
        , ("Content-Type", "application/json")]
    , body := "\x7b\"error\":\"Unauthorized\"\x7d" }

/-- The upstream token URL V1b `handleTokenRequest` builds by template
literal (null coerced to the string `null`). -/
def tokenUrl001b (service scope : Option String) : String :=
  "https://auth.docker.io/token?service=" ++ jsNullStr service ++ "&scope=" ++ jsNullStr scope

/-- The upstream token request V1b `handleTokenRequest` issues. -/
def tokenOutReq001b (req : InRequest) : OutRequest :=
  { url := tokenUrl001b (qGet req.query "service") (qGet req.query "scope")
  , method := "GET"
  , headers :=
      if hHas req.headers "authorization" then
        [("authorization", (hGet req.headers "authorization").getD "")]
      else [] }

/-- V1b `handleTokenRequest(request)`: relay the upstream token response
as-is. -/
def handleTokenRequest001b (fetchFn : Fetch) (req : InRequest) : HttpResponse :=
  fetchFn (tokenOutReq001b req)

/-! ## Src worker header filter (`src/src/index.js`) -/

/-- The literal forward list of Src `handleRequest` (lines 175-179). -/
def srcForwardKeys : List String := ["accept", "content-type", "authorization", "user-agent"]

/-- The outbound header construction of Src `handleRequest`: first copy
the four fixed names when present, then (non-registry branch, lines
246-252) copy any header whose lowercased name is in the per-target
allow-list. -/
def filterHeadersSrc (allowedHeaders : List String) (hs : HeaderList) : HeaderList :=
  let h1 := srcForwardKeys.foldl (fun acc key =>
    if hHas hs (lowerStr key) then hSet acc key ((hGet hs (lowerStr key)).getD "") else acc) []
  hs.foldl (fun acc kv =>
    if allowedHeaders.contains (lowerStr kv.1) then hSet acc kv.1 kv.2 else acc) h1

/-! ## Basic lemmas about the string primitives -/

theorem sdata_append (a b : String) : (a ++ b).data = a.data ++ b.data := by
  cases a; cases b; rfl

theorem smk_data (s : String) : String.mk s.data = s := by
  cases s; rfl

theorem str_eq_iff_data {s t : String} : s = t ↔ s.data = t.data := by
  constructor
  · intro h; rw [h]
  · intro h; cases s; cases t; exact congrArg String.mk h

theorem str_ne_of_data {s t : String} (h : s.data ≠ t.data) : s ≠ t :=
  fun he => h (congrArg String.data he)

theorem isPfxOf_append_self (a b : List Char) : isPfxOf a (a ++ b) = true := by
  induction a with
  | nil => rfl
  | cons c a ih => simp [isPfxOf, ih]

theorem isPfxOf_length_le : ∀ {a b : List Char}, isPfxOf a b = true → a.length ≤ b.length
  | [], _, _ => Nat.zero_le _
  | _ :: _, [], h => by simp [isPfxOf] at h
  | a :: as, b :: bs, h => by
    simp only [isPfxOf, Bool.and_eq_true] at h
    simpa using Nat.succ_le_succ (isPfxOf_length_le h.2)

theorem isPfxOf_trans : ∀ {a b c : List Char},
    isPfxOf a b = true → isPfxOf b c = true → isPfxOf a c = true
  | [], _, _, _, _ => rfl
  | _ :: _, [], _, h, _ => by simp [isPfxOf] at h
  | _ :: _, _ :: _, [], _, h2 => by simp [isPfxOf] at h2
  | a :: as, b :: bs, c :: cs, h1, h2 => by
    simp only [isPfxOf, Bool.and_eq_true, beq_iff_eq] at h1 h2 ⊢
    exact ⟨h1.1.trans h2.1, isPfxOf_trans h1.2 h2.2⟩

theorem pfx_of_pfx_le : ∀ {a b c : List Char}, isPfxOf a c = true → isPfxOf b c = true →
    a.length ≤ b.length → isPfxOf a b = true
  | [], _, _, _, _, _ => rfl
  | _ :: _, _, [], h, _, _ => by simp [isPfxOf] at h
  | a :: as, [], c :: cs, _, _, hl => by simp at hl
  | a :: as, b :: bs, c :: cs, h1, h2, hl => by
    simp only [isPfxOf, Bool.and_eq_true, beq_iff_eq] at h1 h2 ⊢
    exact ⟨h1.1.trans h2.1.symm,
      pfx_of_pfx_le h1.2 h2.2 (Nat.le_of_succ_le_succ (by simpa using hl))⟩

theorem isPfxOf_append_cancel (a b c : List Char) :
    isPfxOf (a ++ b) (a ++ c) = isPfxOf b c := by
  induction a with
  | nil => rfl
  | cons x a ih => simp [isPfxOf, ih]

theorem isPfxOf_append_of {a b : List Char} (c : List Char) (h : isPfxOf a b = true) :
    isPfxOf a (b ++ c) = true :=
  isPfxOf_trans h (isPfxOf_append_self b c)

/-! ## Lemmas about the V0/V1 prefix router -/

theorem bestFold_sound (path : String) : ∀ (keys : List String) (acc : Option String) (q : String),
    keys.foldl (bestMatchStep path) acc = some q →
    acc = some q ∨ (q ∈ keys ∧ segMatch path q = true)
  | [], _, _, h => Or.inl h
  | k :: ks, acc, q, h => by
    rcases bestFold_sound path ks (bestMatchStep path acc k) q h with hstep | ⟨hmem, hm⟩
    · by_cases hk : segMatch path k = true
      · cases acc with
        | none =>
          simp only [bestMatchStep, hk, if_true] at hstep
          have hkq : k = q := by simpa using hstep
          subst hkq
          exact Or.inr ⟨List.mem_cons_self _ _, hk⟩
        | some b =>
          by_cases hlen : strLen k > strLen b
          · simp only [bestMatchStep, hk, if_true, if_pos hlen] at hstep
            have hkq : k = q := by simpa using hstep
            subst hkq
            exact Or.inr ⟨List.mem_cons_self _ _, hk⟩
          · simp only [bestMatchStep, hk, if_true, if_neg hlen] at hstep
            exact Or.inl hstep
      · simp only [bestMatchStep, hk, if_false] at hstep
        exact Or.inl hstep
    · exact Or.inr ⟨List.mem_cons_of_mem _ hmem, hm⟩

theorem bestFold_mono (path : String) : ∀ (keys : List String) (a : String),
    ∃ q, keys.foldl (bestMatchStep path) (some a) = some q ∧ strLen a ≤ strLen q
  | [], a => ⟨a, rfl, Nat.le_refl _⟩
  | k :: ks, a => by
    show ∃ q, ks.foldl (bestMatchStep path) (bestMatchStep path (some a) k) = some q ∧ _
    by_cases hk : segMatch path k = true
    · by_cases hlen : strLen k > strLen a
      · obtain ⟨q, hq, hle⟩ := bestFold_mono path ks k
        refine ⟨q, ?_, Nat.le_of_lt (Nat.lt_of_lt_of_le hlen hle)⟩
        simpa only [bestMatchStep, hk, if_true, if_pos hlen] using hq
      · obtain ⟨q, hq, hle⟩ := bestFold_mono path ks a
        refine ⟨q, ?_, hle⟩
        simpa only [bestMatchStep, hk, if_true, if_neg hlen] using hq
    · obtain ⟨q, hq, hle⟩ := bestFold_mono path ks a
      refine ⟨q, ?_, hle⟩
      simpa only [bestMatchStep, hk, if_false] using hq

theorem bestFold_ge (path : String) : ∀ (keys : List String) (acc : Option String) (P : String),
    P ∈ keys → segMatch path P = true →
    ∃ q, keys.foldl (bestMatchStep path) acc = some q ∧ strLen P ≤ strLen q
  | [], _, _, hP, _ => absurd hP (List.not_mem_nil _)
  | k :: ks, acc, P, hP, hm => by
    show ∃ q, ks.foldl (bestMatchStep path) (bestMatchStep path acc k) = some q ∧ _
    rcases List.mem_cons.mp hP with rfl | hP
    · cases acc with
      | none =>
        obtain ⟨q, hq, hle⟩ := bestFold_mono path ks P
        refine ⟨q, ?_, hle⟩
        simpa only [bestMatchStep, hm, if_true] using hq
      | some b =>
        by_cases hlen : strLen P > strLen b
        · obtain ⟨q, hq, hle⟩ := bestFold_mono path ks P
          refine ⟨q, ?_, hle⟩
          simpa only [bestMatchStep, hm, if_true, if_pos hlen] using hq
        · obtain ⟨q, hq, hle⟩ := bestFold_mono path ks b
          refine ⟨q, ?_, Nat.le_trans (Nat.le_of_not_lt hlen) hle⟩
          simpa only [bestMatchStep, hm, if_true, if_neg hlen] using hq
    · exact bestFold_ge path ks (bestMatchStep path acc k) P hP hm

/-- No configured key extends another across a segment boundary: the
decidable table invariant the router theorems rest on. -/
def segKeysOk (keys : List String) : Bool :=
  keys.all (fun p => keys.all (fun q =>
    (p == q) || !(isPfxOf (p ++ "/").data (q ++ "/").data)))

theorem segKeysOk_spec {keys : List String} (h : segKeysOk keys = true) {p q : String}
    (hp : p ∈ keys) (hq : q ∈ keys)
    (hpq : isPfxOf (p ++ "/").data (q ++ "/").data = true) : p = q := by
  simp only [segKeysOk, List.all_eq_true, Bool.or_eq_true, beq_iff_eq, Bool.not_eq_true] at h
  rcases h p hp q hq with heq | hne
  · exact heq
  · rw [hpq] at hne; cases hne

theorem segKeysOk_registry : segKeysOk registryConfigKeys = true := by decide

theorem segKeysOk_ai : segKeysOk aiConfigKeys = true := by decide

theorem segMatch_extend {P x : String} : segMatch (P ++ "/" ++ x) P = true := by
  unfold segMatch jsStartsWith
  have hd : (P ++ "/" ++ x).data = (P ++ "/").data ++ x.data := sdata_append _ _
  rw [hd, isPfxOf_append_self]
  simp

theorem extract_exact {keys : List String} (hok : segKeysOk keys = true) {P : String}
    (hP : P ∈ keys) (x : String) :
    extractPrefixAndRest (P ++ "/" ++ x) keys = (some P, "/" ++ x) := by
  obtain ⟨q, hq, hlen⟩ := bestFold_ge (P ++ "/" ++ x) keys none P hP segMatch_extend
  rcases bestFold_sound (P ++ "/" ++ x) keys none q hq with hnone | ⟨hqmem, hqm⟩
  · cases hnone
  have hqP : q = P := by
    unfold segMatch jsStartsWith at hqm
    rcases Bool.or_eq_true _ _ |>.mp hqm with hpre | heq
    · have h2 : isPfxOf (P ++ "/").data ((P ++ "/" ++ x)).data = true := by
        rw [sdata_append (P ++ "/") x]; exact isPfxOf_append_self _ _
      have hl : (P ++ "/").data.length ≤ (q ++ "/").data.length := by
        rw [sdata_append, sdata_append]
        simp only [List.length_append]
        exact Nat.add_le_add_right hlen _
      exact (segKeysOk_spec hok hP hqmem (pfx_of_pfx_le h2 hpre hl)).symm
    · have heq2 : P ++ "/" ++ x = q := by simpa using heq
      have hpq : isPfxOf (P ++ "/").data q.data = true := by
        rw [← heq2, sdata_append (P ++ "/") x]
        exact isPfxOf_append_self _ _
      exact (segKeysOk_spec hok hP hqmem (isPfxOf_append_of _ hpq)).symm
  rw [hqP] at hq
  unfold extractPrefixAndRest
  rw [hq]
  have hdata : (P ++ "/" ++ x).data = P.data ++ ("/" ++ x).data := by
    rw [sdata_append (P ++ "/") x, sdata_append P "/", sdata_append "/" x, List.append_assoc]
  show (some P, jsSliceFrom (P ++ "/" ++ x) (strLen P)) = (some P, "/" ++ x)
  unfold jsSliceFrom strLen
  rw [hdata, List.drop_left, smk_data]

theorem extract_no_cross_boundary {keys : List String} {P : String} (_hP : P ∈ keys) {x : String}
    (hx : jsStartsWith x "/" = false) (hne : x ≠ "") :
    (extractPrefixAndRest (P ++ x) keys).1 ≠ some P := by
  intro hsome
  have hmatch : segMatch (P ++ x) P = true := by
    unfold extractPrefixAndRest at hsome
    rcases hfold : (keys.foldl (bestMatchStep (P ++ x)) none) with _ | b
    · rw [hfold] at hsome; cases hsome
    · rw [hfold] at hsome
      have hbP : b = P := by simpa using hsome
      rcases bestFold_sound (P ++ x) keys none b hfold with hnone | ⟨_, hm⟩
      · cases hnone
      · rw [hbP] at hm; exact hm
  unfold segMatch at hmatch
  rcases Bool.or_eq_true _ _ |>.mp hmatch with hpre | heq
  · unfold jsStartsWith at hpre hx
    rw [sdata_append P "/", sdata_append P x, isPfxOf_append_cancel] at hpre
    rw [hpre] at hx
    cases hx
  · have heq2 : P ++ x = P := by simpa using heq
    have hlen := congrArg (fun s => s.data.length) heq2
    simp only [sdata_append, List.length_append] at hlen
    have hx0 : x.data.length = 0 := by omega
    exact hne (str_eq_iff_data.mpr (List.length_eq_zero.mp hx0))

/-! ## Lemmas about the Src router -/

/-- No distinct Src key is a bare string prefix of another. -/
def srcKeysDistinctOk (keys : List String) : Bool :=
  keys.all (fun p => keys.all (fun q => (p == q) || !(isPfxOf p.data q.data)))

/-- No Src key followed by a slash is a prefix of another key. -/
def srcKeysNoExtendOk (keys : List String) : Bool :=
  keys.all (fun p => keys.all (fun q => !(isPfxOf (p ++ "/").data q.data)))

theorem srcKeysDistinct_api : srcKeysDistinctOk apiMappingSrcKeys = true := by decide

theorem srcKeysNoExtend_api : srcKeysNoExtendOk apiMappingSrcKeys = true := by decide

theorem srcKeysSlash_api : apiMappingSrcKeys.all (fun p => jsStartsWith p "/") = true := by decide

theorem srcKeysDistinctOk_spec {keys : List String} (h : srcKeysDistinctOk keys = true)
    {p q : String} (hp : p ∈ keys) (hq : q ∈ keys)
    (hpq : isPfxOf p.data q.data = true) : p = q := by
  simp only [srcKeysDistinctOk, List.all_eq_true, Bool.or_eq_true, beq_iff_eq,
    Bool.not_eq_true] at h
  rcases h p hp q hq with heq | hne
  · exact heq
  · rw [hpq] at hne; cases hne

theorem srcKeysNoExtendOk_spec {keys : List String} (h : srcKeysNoExtendOk keys = true)
    {p q : String} (hp : p ∈ keys) (hq : q ∈ keys) :
    isPfxOf (p ++ "/").data q.data = false := by
  simp only [srcKeysNoExtendOk, List.all_eq_true] at h
  simpa using h p hp q hq

theorem find_first_unique {p : String → Bool} : ∀ {keys : List String} {P : String},
    P ∈ keys → p P = true → (∀ q ∈ keys, p q = true → q = P) → keys.find? p = some P
  | [], _, hP, _, _ => absurd hP (List.not_mem_nil _)
  | k :: ks, P, hP, hpP, huniq => by
    by_cases hk : p k = true
    · rw [List.find?_cons_of_pos _ hk, huniq k (List.mem_cons_self _ _) hk]
    · rw [List.find?_cons_of_neg _ hk]
      rcases List.mem_cons.mp hP with rfl | hP2
      · exact absurd hpP hk
      · exact find_first_unique hP2 hpP (fun q hq hpq => huniq q (List.mem_cons_of_mem _ hq) hpq)

theorem extractSrc_exact {P : String} (hP : P ∈ apiMappingSrcKeys) (x : String) :
    extractPrefixAndRestSrc (P ++ "/" ++ x) apiMappingSrcKeys = some (P, "/" ++ x) := by
  have hPslash : jsStartsWith P "/" = true := by
    have h := srcKeysSlash_api
    simp only [List.all_eq_true] at h
    exact h P hP
  have hdata : (P ++ "/" ++ x).data = P.data ++ ("/" ++ x).data := by
    rw [sdata_append (P ++ "/") x, sdata_append P "/", sdata_append "/" x, List.append_assoc]
  have hpath : jsStartsWith (P ++ "/" ++ x) "/" = true := by
    unfold jsStartsWith at hPslash ⊢
    rw [hdata]
    exact isPfxOf_trans hPslash (isPfxOf_append_self _ _)
  have hPmatch : jsStartsWith (P ++ "/" ++ x) P = true := by
    unfold jsStartsWith
    rw [hdata]
    exact isPfxOf_append_self _ _
  have hfind : apiMappingSrcKeys.find? (fun pfx => jsStartsWith (P ++ "/" ++ x) pfx) = some P := by
    refine find_first_unique hP hPmatch ?_
    intro q hq hmq
    unfold jsStartsWith at hmq
    rcases le_or_lt q.data.length P.data.length with hle | hlt
    · refine srcKeysDistinctOk_spec srcKeysDistinct_api hq hP ?_
      have hPpfx : isPfxOf P.data (P ++ "/" ++ x).data = true := by
        rw [hdata]; exact isPfxOf_append_self _ _
      exact pfx_of_pfx_le hmq hPpfx hle
    · exfalso
      have hPslashPfx : isPfxOf (P ++ "/").data (P ++ "/" ++ x).data = true := by
        rw [sdata_append (P ++ "/") x]; exact isPfxOf_append_self _ _
      have hlen : (P ++ "/").data.length ≤ q.data.length := by
        rw [sdata_append]
        simpa [List.length_append] using hlt
      have := pfx_of_pfx_le hPslashPfx hmq hlen
      rw [srcKeysNoExtendOk_spec srcKeysNoExtend_api hP hq] at this
      cases this
  unfold extractPrefixAndRestSrc
  simp only [hpath, if_true, hfind]
  have hrest : jsSliceFrom (P ++ "/" ++ x) (strLen P) = "/" ++ x := by
    unfold jsSliceFrom strLen
    rw [hdata, List.drop_left, smk_data]
  rw [hrest]

/-! ## Claim C1 -/

/-- Claim C1 counterexample: the claim asserts segment-boundary matching
for `extractPrefixAndRest`, citing both the V0 router and the Src router
(`src/src/index.js` lines 281-292). The Src router uses a bare
`startsWith` with no boundary check, so the path `/ai/openai-x/foo`
- which is `/ai/openai` followed by text NOT beginning with `/` - DOES
match the configured prefix `/ai/openai` there, refuting the claim as
stated. -/
theorem claim1_counterexample :
    ("/ai/openai-x/foo" : String) = "/ai/openai" ++ "-x/foo"
    ∧ jsStartsWith "-x/foo" "/" = false
    ∧ ("/ai/openai" : String) ∈ apiMappingSrcKeys
    ∧ extractPrefixAndRestSrc "/ai/openai-x/foo" apiMappingSrcKeys
        = some ("/ai/openai", "-x/foo") := by
  refine ⟨rfl, by decide, by decide, by decide⟩

/-- Claim C1 (amended): for the configured tables, the V0/V1 router
`extractPrefixAndRest` maps `P + "/x"` to the entry for `P` with
remainder `"/x"`, and never matches `P` against `P + "x"` when `x` does
not begin with `/` and the path is not exactly `P`; the Src router also
maps `P + "/x"` to `(P, "/x")` for its configured table, but (per the
counterexample) performs no boundary check on `P + "x"` paths. -/
theorem claim1_amended (keys : List String) (P x : String)
    (hkeys : keys = registryConfigKeys ∨ keys = aiConfigKeys) (hP : P ∈ keys) :
    extractPrefixAndRest (P ++ "/" ++ x) keys = (some P, "/" ++ x)
    ∧ (jsStartsWith x "/" = false → x ≠ "" →
        (extractPrefixAndRest (P ++ x) keys).1 ≠ some P)
    ∧ (∀ Q ∈ apiMappingSrcKeys, ∀ y : String,
        extractPrefixAndRestSrc (Q ++ "/" ++ y) apiMappingSrcKeys = some (Q, "/" ++ y)) := by
  have hok : segKeysOk keys = true := by
    rcases hkeys with rfl | rfl
    · exact segKeysOk_registry
    · exact segKeysOk_ai
  exact ⟨extract_exact hok hP x,
    fun hx hne => extract_no_cross_boundary hP hx hne,
    fun Q hQ y => extractSrc_exact hQ y⟩

/-- Claim C1 witness: the amended router theorem applied at concrete
inputs from both tables. -/
theorem claim1_witness :
    (extractPrefixAndRest ("register/docker/hub" ++ "/" ++ "busybox/manifests/latest")
        registryConfigKeys = (some "register/docker/hub", "/" ++ "busybox/manifests/latest"))
    ∧ (extractPrefixAndRest ("/ai/openai" ++ "-x") aiConfigKeys).1 ≠ some "/ai/openai" := by
  have h1 := claim1_amended registryConfigKeys "register/docker/hub" "busybox/manifests/latest"
    (Or.inl rfl) (by decide)
  have h2 := claim1_amended aiConfigKeys "/ai/openai" "-x" (Or.inr rfl) (by decide)
  exact ⟨h1.1, h2.2.1 (by decide) (by decide)⟩

/-! ## Header lookup lemmas -/

theorem find?_filter_of_imp {α} (p q : α → Bool) :
    ∀ (l : List α), (∀ x, p x = true → q x = true) → (l.filter q).find? p = l.find? p
  | [], _ => rfl
  | a :: l, h => by
    by_cases hq : q a = true
    · rw [List.filter_cons_of_pos hq]
      by_cases hp : p a = true
      · rw [List.find?_cons_of_pos _ hp, List.find?_cons_of_pos _ hp]
      · rw [List.find?_cons_of_neg _ hp, List.find?_cons_of_neg _ hp,
          find?_filter_of_imp p q l h]
    · rw [List.filter_cons_of_neg hq]
      have hp : p a ≠ true := fun hpa => hq (h a hpa)
      rw [List.find?_cons_of_neg _ hp, find?_filter_of_imp p q l h]

theorem hGet_hSet_same (hs : HeaderList) (n v m : String) (h : lowerStr n = lowerStr m) :
    hGet (hSet hs n v) m = some v := by
  unfold hGet hSet
  rw [List.find?_append]
  have hnone : (hs.filter (fun p => !(lowerStr p.1 == lowerStr n))).find?
      (fun p => lowerStr p.1 == lowerStr m) = none := by
    rw [List.find?_eq_none]
    intro x hx hmatch
    have hq := (List.mem_filter.mp hx).2
    rw [← h] at hmatch
    rw [hmatch] at hq
    cases hq
  rw [hnone]
  simp [h]

theorem hGet_hSet_other (hs : HeaderList) (n v m : String) (h : lowerStr n ≠ lowerStr m) :
    hGet (hSet hs n v) m = hGet hs m := by
  unfold hGet hSet
  rw [List.find?_append]
  have hfilter : (hs.filter (fun p => !(lowerStr p.1 == lowerStr n))).find?
      (fun p => lowerStr p.1 == lowerStr m) = hs.find? (fun p => lowerStr p.1 == lowerStr m) := by
    refine find?_filter_of_imp _ _ hs ?_
    intro x hx
    simp only [beq_iff_eq] at hx
    simp only [Bool.not_eq_true', beq_eq_false_iff_ne]
    rw [hx]
    exact fun he => h he.symm
  rw [hfilter]
  have hpred : (lowerStr n == lowerStr m) = false := beq_eq_false_iff_ne.mpr h
  have hsingle : List.find? (fun p => lowerStr p.1 == lowerStr m) [(n, v)] = none := by
    simp [List.find?, hpred]
  rw [hsingle]
  simp

/-- The response carries the three gateway security headers with the
gateway values. -/
def hasSecurityHeaders (r : HttpResponse) : Prop :=
  hGet r.headers "X-Content-Type-Options" = some "nosniff"
  ∧ hGet r.headers "X-Frame-Options" = some "DENY"
  ∧ hGet r.headers "Referrer-Policy" = some "no-referrer"

theorem securityHeaders_get (hs : HeaderList) :
    hGet (addSecurityHeaders hs) "X-Content-Type-Options" = some "nosniff"
    ∧ hGet (addSecurityHeaders hs) "X-Frame-Options" = some "DENY"
    ∧ hGet (addSecurityHeaders hs) "Referrer-Policy" = some "no-referrer" := by
  unfold addSecurityHeaders
  refine ⟨?_, ?_, ?_⟩
  · rw [hGet_hSet_other _ _ _ _ (by decide), hGet_hSet_other _ _ _ _ (by decide),
      hGet_hSet_same _ _ _ _ (by decide)]
  · rw [hGet_hSet_other _ _ _ _ (by decide), hGet_hSet_same _ _ _ _ (by decide)]
  · rw [hGet_hSet_same _ _ _ _ (by decide)]

/-! ## Claim C2 -/

/-- A trivial upstream oracle for concrete evaluations. -/
def dummyFetch : Fetch := fun _ => { status := 200 }

/-- A concrete inbound request for the gateway root page. -/
def rootReq : InRequest := { hostname := "gw.example.com", pathname := "/" }

/-- Claim C2 counterexample: the static landing-page response produced by
V0 `handleApiRequest` for `GET /` carries none of the three security
headers, refuting the claim that every response does. -/
theorem claim2_counterexample :
    (handleApiRequest000 dummyFetch rootReq).status = 200
    ∧ hGet (handleApiRequest000 dummyFetch rootReq).headers "X-Content-Type-Options" = none
    ∧ hGet (handleApiRequest000 dummyFetch rootReq).headers "X-Frame-Options" = none
    ∧ hGet (handleApiRequest000 dummyFetch rootReq).headers "Referrer-Policy" = none := by
  decide

/-- Claim C2 (amended): the three security headers are present, with the
gateway values overriding any upstream-supplied ones, exactly on the
forwarding pass-through responses - a registry forward whose upstream
status is neither 401 nor a chased 307/302, and every generic-forwarder
response; the token relay returns the upstream response untouched (and
the static, 404, ping, challenge and redirect-chase responses likewise
receive no security headers, as the counterexample shows). -/
theorem claim2_amended (fetchFn : Fetch) (req : InRequest)
    (baseUrl imagePath search gBaseUrl restPath gSearch : String) (allowed : List String)
    (h401 : (fetchFn (registryForwardReq req baseUrl imagePath search)).status ≠ 401)
    (h307 : (fetchFn (registryForwardReq req baseUrl imagePath search)).status ≠ 307)
    (h302 : (fetchFn (registryForwardReq req baseUrl imagePath search)).status ≠ 302) :
    hasSecurityHeaders (handleRegistryRequest000 fetchFn req baseUrl imagePath search)
    ∧ hasSecurityHeaders (handleGenericApiRequest000 fetchFn req gBaseUrl restPath gSearch allowed)
    ∧ handleTokenRequest000 fetchFn req = fetchFn (tokenOutReq000 req) := by
  have e1 : ((fetchFn (registryForwardReq req baseUrl imagePath search)).status == 401) = false :=
    beq_eq_false_iff_ne.mpr h401
  have e2 : ((fetchFn (registryForwardReq req baseUrl imagePath search)).status == 307) = false :=
    beq_eq_false_iff_ne.mpr h307
  have e3 : ((fetchFn (registryForwardReq req baseUrl imagePath search)).status == 302) = false :=
    beq_eq_false_iff_ne.mpr h302
  refine ⟨?_, ?_, rfl⟩
  · unfold handleRegistryRequest000
    simp only [e1, e2, e3, Bool.or_self, Bool.and_false, Bool.false_eq_true, if_false]
    exact securityHeaders_get _
  · unfold handleGenericApiRequest000
    exact securityHeaders_get _

/-- A concrete upstream oracle whose responses carry a conflicting
`X-Frame-Options` value. -/
def upstreamFetch200 : Fetch :=
  fun _ => { status := 200, headers := [("X-Frame-Options", "ALLOWALL"), ("Server", "up")] }

/-- A concrete registry pull request. -/
def sampleRegistryReq : InRequest :=
  { hostname := "gw.example.com", pathname := "/v2/busybox/manifests/latest" }

/-- Claim C2 witness: the amended theorem applied to a concrete upstream
oracle that supplies a conflicting header value. -/
theorem claim2_witness :
    hasSecurityHeaders (handleRegistryRequest000 upstreamFetch200 sampleRegistryReq
      DOCKER_HUB_URL "library/busybox/manifests/latest" "")
    ∧ hasSecurityHeaders (handleGenericApiRequest000 upstreamFetch200 sampleRegistryReq
      "https://api.anthropic.com" "/v1/messages" "" ["anthropic-version"]) := by
  have h := claim2_amended upstreamFetch200 sampleRegistryReq
    DOCKER_HUB_URL "library/busybox/manifests/latest" "" "https://api.anthropic.com"
    "/v1/messages" "" ["anthropic-version"] (by decide) (by decide) (by decide)
  exact ⟨h.1, h.2.1⟩

/-! ## Claims C6 and C9: the blob-redirect chase -/

theorem chaseRedirect_eq (fetchFn : Fetch) (req : InRequest)
    (baseUrl imagePath search location : String)
    (hhub : baseUrl = DOCKER_HUB_URL)
    (hst : (fetchFn (registryForwardReq req baseUrl imagePath search)).status = 307
      ∨ (fetchFn (registryForwardReq req baseUrl imagePath search)).status = 302)
    (hloc : hGet (fetchFn (registryForwardReq req baseUrl imagePath search)).headers "Location"
      = some location)
    (hne : location ≠ "") :
    handleRegistryRequest000 fetchFn req baseUrl imagePath search
      = fetchFn (followRedirectReq location) := by
  have e401 : ((fetchFn (registryForwardReq req baseUrl imagePath search)).status == 401)
      = false := by
    rcases hst with h | h <;> simp [h]
  have eor : ((fetchFn (registryForwardReq req baseUrl imagePath search)).status == 307
      || (fetchFn (registryForwardReq req baseUrl imagePath search)).status == 302) = true := by
    rcases hst with h | h <;> simp [h]
  have ehub : (baseUrl == DOCKER_HUB_URL) = true := by simp [hhub]
  have eloc : (location == "") = false := beq_eq_false_iff_ne.mpr hne
  unfold handleRegistryRequest000
  simp only [e401, Bool.false_eq_true, if_false, ehub, eor, Bool.and_true, if_true, hloc,
    eloc, Bool.not_false]

/-- Claim C6: when the default registry answers a blob fetch with a 307
or 302 carrying a `Location` header, V0 `handleRegistryRequest` returns
exactly the result of a fresh GET to the `Location` URL with redirects
followed - the client receives that fetch response, never the bare
redirect. -/
theorem claim6_redirect_chased (fetchFn : Fetch) (req : InRequest)
    (imagePath search location : String)
    (hst : (fetchFn (registryForwardReq req DOCKER_HUB_URL imagePath search)).status = 307
      ∨ (fetchFn (registryForwardReq req DOCKER_HUB_URL imagePath search)).status = 302)
    (hloc : hGet (fetchFn (registryForwardReq req DOCKER_HUB_URL imagePath search)).headers
      "Location" = some location)
    (hne : location ≠ "") :
    handleRegistryRequest000 fetchFn req DOCKER_HUB_URL imagePath search
      = fetchFn (followRedirectReq location)
    ∧ (followRedirectReq location).redirect = "follow"
    ∧ (followRedirectReq location).url = location :=
  ⟨chaseRedirect_eq fetchFn req DOCKER_HUB_URL imagePath search location rfl hst hloc hne,
    rfl, rfl⟩

/-- A concrete oracle for the blob-redirect flow: the registry forward
yields a 307 with a pre-signed `Location`; the pre-signed URL yields the
blob. -/
def blobFetch : Fetch := fun r =>
  if r.url == "https://blobstore.example.com/presigned" then { status := 200, body := "blobdata" }
  else { status := 307, headers := [("Location", "https://blobstore.example.com/presigned")] }

/-- Claim C6 witness: the chase theorem at a concrete oracle. -/
theorem claim6_witness :
    handleRegistryRequest000 blobFetch sampleRegistryReq DOCKER_HUB_URL
      "library/busybox/blobs/sha256:abc" ""
    = blobFetch (followRedirectReq "https://blobstore.example.com/presigned") :=
  (claim6_redirect_chased blobFetch sampleRegistryReq "library/busybox/blobs/sha256:abc" ""
    "https://blobstore.example.com/presigned" (Or.inl (by decide)) (by decide) (by decide)).1

/-- A client request carrying credentials and a non-GET method, to show
they are not propagated to the pre-signed URL. -/
def authedClientReq : InRequest :=
  { hostname := "gw.example.com", pathname := "/v2/busybox/blobs/sha256:abc"
  , method := "HEAD"
  , headers := [("Authorization", "Bearer clienttoken"), ("Cookie", "session")] }

/-- Claim C9: the follow-up request for a chased blob redirect is always
a bare GET to the `Location` URL - an empty header list, in particular no
client `Authorization` - regardless of the client request method and
headers, and the handler returns exactly the oracle response to that
bare request. -/
theorem claim9_bare_get (fetchFn : Fetch) (req : InRequest)
    (imagePath search location : String)
    (hst : (fetchFn (registryForwardReq req DOCKER_HUB_URL imagePath search)).status = 307
      ∨ (fetchFn (registryForwardReq req DOCKER_HUB_URL imagePath search)).status = 302)
    (hloc : hGet (fetchFn (registryForwardReq req DOCKER_HUB_URL imagePath search)).headers
      "Location" = some location)
    (hne : location ≠ "") :
    (followRedirectReq location).method = "GET"
    ∧ (followRedirectReq location).headers = []
    ∧ hGet (followRedirectReq location).headers "Authorization" = none
    ∧ (followRedirectReq location).body = none
    ∧ handleRegistryRequest000 fetchFn req DOCKER_HUB_URL imagePath search
      = fetchFn (followRedirectReq location) :=
  ⟨rfl, rfl, rfl, rfl,
    chaseRedirect_eq fetchFn req DOCKER_HUB_URL imagePath search location rfl hst hloc hne⟩

/-- Claim C9 witness: the bare-GET theorem at a concrete oracle and a
client request that carries credentials and uses HEAD. -/
theorem claim9_witness :
    (followRedirectReq "https://blobstore.example.com/presigned").headers = []
    ∧ handleRegistryRequest000 blobFetch authedClientReq DOCKER_HUB_URL
        "library/busybox/blobs/sha256:abc" ""
      = blobFetch (followRedirectReq "https://blobstore.example.com/presigned") := by
  have h := claim9_bare_get blobFetch authedClientReq "library/busybox/blobs/sha256:abc" ""
    "https://blobstore.example.com/presigned" (Or.inl (by decide)) (by decide) (by decide)
  exact ⟨h.2.1, h.2.2.2.2⟩

/-! ## Claim C10: missing token parameters become the string null -/

/-- Claim C10: both token handlers always issue the upstream token
request; when `service` or `scope` is absent from the query, the value
interpolated into the upstream query string is the literal `null` (via
`encodeURIComponent(null)` in V0 and the template literal in V1b). -/
theorem claim10_null_params (fetchFn : Fetch) (req : InRequest) :
    handleTokenRequest000 fetchFn req = fetchFn (tokenOutReq000 req)
    ∧ (qGet req.query "service" = none →
        tokenUrl000 (qGet req.query "service") (qGet req.query "scope")
          = "https://auth.docker.io/token?service=null&scope="
            ++ encodeURIComponent (jsNullStr (qGet req.query "scope")))
    ∧ (qGet req.query "service" = none → qGet req.query "scope" = none →
        tokenUrl000 (qGet req.query "service") (qGet req.query "scope")
          = "https://auth.docker.io/token?service=null&scope=null")
    ∧ handleTokenRequest001b fetchFn req = fetchFn (tokenOutReq001b req)
    ∧ (qGet req.query "service" = none → qGet req.query "scope" = none →
        tokenUrl001b (qGet req.query "service") (qGet req.query "scope")
          = "https://auth.docker.io/token?service=null&scope=null") := by
  refine ⟨rfl, ?_, ?_, rfl, ?_⟩
  · intro hs
    unfold tokenUrl000
    rw [hs]
    exact congrArg (fun s => s ++ encodeURIComponent (jsNullStr (qGet req.query "scope")))
      (by decide)
  · intro hs hsc
    rw [hs, hsc]
    decide
  · intro hs hsc
    rw [hs, hsc]
    decide

/-- A concrete token request with neither `service` nor `scope`. -/
def bareTokenReq : InRequest := { hostname := "gw.example.com", pathname := "/v2/token" }

/-- Claim C10 witness: the null-substitution theorem at a concrete
request with both parameters missing. -/
theorem claim10_witness :
    tokenUrl000 (qGet bareTokenReq.query "service") (qGet bareTokenReq.query "scope")
      = "https://auth.docker.io/token?service=null&scope=null"
    ∧ handleTokenRequest000 dummyFetch bareTokenReq = dummyFetch (tokenOutReq000 bareTokenReq) := by
  have h := claim10_null_params dummyFetch bareTokenReq
  exact ⟨h.2.2.1 (by decide) (by decide), h.1⟩

/-! ## Claim C4: the rewritten realm points at the gateway host -/

/-- Hostname of the realm URL in a rewritten challenge header of the
form `Bearer realm="https://<host>/..."`. -/
def hostFromChallenge (s : String) : Option String :=
  let p := "Bearer realm=\"https://".data
  if isPfxOf p s.data then
    some (String.mk ((s.data.drop p.length).takeWhile (fun c => !(c = '/'))))
  else none

theorem takeWhile_append_stop (P : Char → Bool) : ∀ (a : List Char) (c : Char) (b : List Char),
    (∀ x ∈ a, P x = true) → P c = false → ((a ++ c :: b).takeWhile P) = a
  | [], c, b, _, hc => by simp [List.takeWhile_cons, hc]
  | x :: a, c, b, ha, hc => by
    have hx : P x = true := ha x (List.mem_cons_self _ _)
    simp only [List.cons_append, List.takeWhile_cons, hx, if_true]
    rw [takeWhile_append_stop P a c b (fun y hy => ha y (List.mem_cons_of_mem _ hy)) hc]

theorem hostFromChallenge_of_data (tail : List Char) {host s : String}
    (hs : s.data = "Bearer realm=\"https://".data ++ (host.data ++ ('/' :: tail)))
    (hhost : ∀ c ∈ host.data, c ≠ '/') :
    hostFromChallenge s = some host := by
  unfold hostFromChallenge
  rw [hs]
  rw [if_pos (isPfxOf_append_self _ _)]
  rw [List.drop_left]
  rw [takeWhile_append_stop _ host.data '/' tail (fun x hx => by simp [hhost x hx]) (by simp)]

theorem challengeHeader000_host (hostname service scope : String) (ops : List String)
    (hhost : ∀ c ∈ hostname.data, c ≠ '/') :
    hostFromChallenge
      (challengeHeader000 ("https://" ++ hostname ++ "/v2/token") service scope ops)
      = some hostname := by
  unfold challengeHeader000
  by_cases hops : ops.length > 0
  · rw [if_pos hops]
    refine hostFromChallenge_of_data
      ("v2/token\",service=\"".data ++ (service.data ++ ("\",scope=\"".data
        ++ (scope.data ++ ("\"".data ++ (",".data ++ (String.intercalate "," ops).data))))))
      ?_ hhost
    simp only [sdata_append, List.append_assoc]
    rfl
  · rw [if_neg hops]
    refine hostFromChallenge_of_data
      ("v2/token\",service=\"".data ++ (service.data ++ ("\",scope=\"".data
        ++ (scope.data ++ "\"".data))))
      ?_ hhost
    simp only [sdata_append, List.append_assoc]
    rfl

theorem challengeHeader001b_host (hostname service : String)
    (hhost : ∀ c ∈ hostname.data, c ≠ '/') :
    hostFromChallenge (challengeHeader001b hostname service) = some hostname := by
  unfold challengeHeader001b
  refine hostFromChallenge_of_data
    ("v2/token\",service=\"".data ++ (service.data ++ "\"".data)) ?_ hhost
  simp only [sdata_append, List.append_assoc]
  rfl

theorem responseUnauthorized000_realm (hostname : String) (ah rip : Option String)
    (hhost : ∀ c ∈ hostname.data, c ≠ '/') :
    ∃ v, hGet (responseUnauthorized000 hostname ah rip).headers "WWW-Authenticate" = some v
      ∧ hostFromChallenge v = some hostname := by
  unfold responseUnauthorized000
  exact ⟨_, hGet_hSet_same _ _ _ _ rfl, challengeHeader000_host hostname _ _ _ hhost⟩

theorem responseUnauthorized001b_realm (hostname : String) (ah : Option String)
    (hhost : ∀ c ∈ hostname.data, c ≠ '/') :
    ∃ v, hGet (responseUnauthorized001b hostname ah).headers "Www-Authenticate" = some v
      ∧ hostFromChallenge v = some hostname := by
  unfold responseUnauthorized001b
  by_cases hta : jsTruthy ah = true
  · simp only [hta, if_true]
    rcases reFindValueL "realm=\"".data (jsNullStr ah).data with _ | c1 <;>
      rcases reFindValueL "service=\"".data (jsNullStr ah).data with _ | c2 <;>
      exact ⟨_, by rw [show hGet [("Www-Authenticate", challengeHeader001b hostname _),
        ("Content-Type", "application/json")] "Www-Authenticate"
          = some (challengeHeader001b hostname _) from rfl],
        challengeHeader001b_host hostname _ hhost⟩
  · simp only [Bool.not_eq_true] at hta
    simp only [hta, Bool.false_eq_true, if_false]
    exact ⟨_, rfl, challengeHeader001b_host hostname _ hhost⟩

/-- Claim C4: a 401 on the `/v2/` ping relayed by V0 `handleApiRequest`
yields a response whose `WWW-Authenticate` realm hostname is the
hostname of the client request to the gateway, whatever the upstream
challenge was; the V1b `responseUnauthorized` rewrite has the same
property for every upstream header. -/
theorem claim4_realm_host (fetchFn : Fetch) (req : InRequest)
    (hpath : req.pathname = "/v2/")
    (hping : (fetchFn (pingReq req)).status = 401)
    (hhost : ∀ c ∈ req.hostname.data, c ≠ '/') :
    (∃ v, hGet (handleApiRequest000 fetchFn req).headers "WWW-Authenticate" = some v
        ∧ hostFromChallenge v = some req.hostname)
    ∧ ∀ ah : Option String, ∃ v,
        hGet (responseUnauthorized001b req.hostname ah).headers "Www-Authenticate" = some v
        ∧ hostFromChallenge v = some req.hostname := by
  constructor
  · have hst : ((fetchFn (pingReq req)).status == 401) = true := by simp [hping]
    unfold handleApiRequest000
    rw [hpath]
    simp only [show (("/v2/" : String) == "/") = false from by decide,
      show (("/v2/" : String) == "/index.html") = false from by decide,
      show (("/v2/" : String) == "/robots.txt") = false from by decide,
      show jsStartsWith "/v2/" "/v2/" = true from by decide,
      show jsSliceFrom "/v2/" 4 = "" from by decide,
      show (("" : String) == "") = true from by decide,
      Bool.or_false, Bool.false_eq_true, if_false, if_true, hst]
    exact responseUnauthorized000_realm req.hostname _ none hhost
  · exact fun ah => responseUnauthorized001b_realm req.hostname ah hhost

/-- A concrete upstream oracle answering the ping with a 401 and the
usual Docker Hub challenge. -/
def ping401Fetch : Fetch := fun _ =>
  { status := 401
  , headers := [("Www-Authenticate",
      "Bearer realm=\"https://auth.docker.io/token\",service=\"registry.docker.io\"")] }

/-- A concrete client ping request. -/
def pingClientReq : InRequest := { hostname := "gw.example.com", pathname := "/v2/" }

/-- Claim C4 witness: the realm-host theorem at a concrete oracle and
request. -/
theorem claim4_witness :
    ∃ v, hGet (handleApiRequest000 ping401Fetch pingClientReq).headers "WWW-Authenticate" = some v
      ∧ hostFromChallenge v = some "gw.example.com" :=
  (claim4_realm_host ping401Fetch pingClientReq rfl (by decide) (by decide)).1

/-! ## Claim C3: the token relay and the scope rewrite -/

theorem paramsGet_paramsSet (k v : String) : ∀ (ps : List (String × String)),
    paramsGet (paramsSet ps k v) k = some v
  | [] => by simp [paramsSet, paramsGet, List.find?]
  | p :: rest => by
    by_cases hp : (p.1 == k) = true
    · simp only [paramsSet, hp, if_true]
      simp [paramsGet, List.find?]
    · have hp2 : (p.1 == k) = false := by simpa using hp
      simp only [paramsSet, hp2, Bool.false_eq_true, if_false]
      have := paramsGet_paramsSet k v rest
      simp only [paramsGet, List.find?] at this ⊢
      simp only [hp2]
      exact this

theorem paramsGet_paramsSet_other (k v k2 : String) (hne : (k == k2) = false) :
    ∀ (ps : List (String × String)),
    paramsGet (paramsSet ps k v) k2 = paramsGet ps k2
  | [] => by simp [paramsSet, paramsGet, List.find?, hne]
  | p :: rest => by
    by_cases hp : (p.1 == k) = true
    · simp only [paramsSet, hp, if_true]
      have hpk : p.1 = k := by simpa using hp
      have hpk2 : (p.1 == k2) = false := by rw [hpk]; exact hne
      simp only [paramsGet, List.find?, hne, hpk2]
      have hff := find?_filter_of_imp (fun q => q.1 == k2) (fun q => !(q.1 == k)) rest (by
        intro x hx
        have hxk2 : x.1 = k2 := by simpa using hx
        simp only [Bool.not_eq_true', beq_eq_false_iff_ne, hxk2]
        exact fun h => (beq_eq_false_iff_ne.mp hne) h.symm)
      rw [hff]
    · have hpf : (p.1 == k) = false := by simpa using hp
      simp only [paramsSet, hpf, Bool.false_eq_true, if_false]
      by_cases hp2 : (p.1 == k2) = true
      · simp [paramsGet, List.find?, hp2]
      · have hp2f : (p.1 == k2) = false := by simpa using hp2
        have := paramsGet_paramsSet_other k v k2 hne rest
        simp only [paramsGet, List.find?] at this ⊢
        simp only [hp2f]
        exact this

/-- An oracle that records the requested URL in the response body. -/
def echoUrlFetch : Fetch := fun r => { status := 200, body := r.url }

/-- A concrete `/v2/token` request matching the claim scenario. -/
def c3TokenReq : InRequest :=
  { hostname := "gw.example.com", pathname := "/v2/token"
  , query := [("service", "registry.docker.io"), ("scope", "repository:busybox:pull")] }

/-- Claim C3 counterexample: the `/v2/token` handler cited by the claim
(V0 `handleTokenRequest`) relays `service` and `scope` verbatim - the
upstream query carries the URL-encoded `repository:busybox:pull` and no
`library/` namespace is ever inserted - so the relayed scope is not
`repository:library/busybox:pull` as claimed. -/
theorem claim3_counterexample :
    (handleTokenRequest000 echoUrlFetch c3TokenReq).body
      = "https://auth.docker.io/token?service=registry.docker.io&scope=repository%3Abusybox%3Apull"
    ∧ jsIncludes (tokenUrl000 (qGet c3TokenReq.query "service") (qGet c3TokenReq.query "scope"))
        "library" = false := by
  refine ⟨by decide, by decide⟩

/-- Claim C3 (amended): the V1 `/v2/auth` handler (`handleAuthRequest`)
maps the advertised service `cloudflare-docker-proxy` back to
`registry.docker.io`, rewrites the scope `repository:busybox:pull` to
`repository:library/busybox:pull`, discovers the upstream realm from the
ping challenge, and returns the upstream token response unchanged; the
relayed scope parameter is exactly the rewritten scope. The `/v2/token`
handler (V0 `handleTokenRequest`), per the counterexample, relays both
parameters verbatim with no mapping or rewriting. -/
theorem claim3_amended (fetchFn : Fetch) (req : InRequest) (realm sv : String)
    (hsvc : qGet req.query "service" = some "cloudflare-docker-proxy")
    (hscope : qGet req.query "scope" = some "repository:busybox:pull")
    (hauth : hGet req.headers "Authorization" = none)
    (htruthy : jsTruthy (hGet (fetchFn authPingReq).headers "WWW-Authenticate") = true)
    (hparse : parseAuthenticate001
      (jsNullStr (hGet (fetchFn authPingReq).headers "WWW-Authenticate")) = some (realm, sv)) :
    handleAuthRequest001 fetchFn req
      = some (fetchFn (fetchTokenReq realm sv (some "repository:library/busybox:pull") none))
    ∧ paramsGet (tokenUrl001 realm sv (some "repository:library/busybox:pull")).params "scope"
        = some "repository:library/busybox:pull" := by
  constructor
  · unfold handleAuthRequest001
    rw [hsvc, hscope, hauth]
    simp only [show ((some "cloudflare-docker-proxy" : Option String)
        == some "cloudflare-docker-proxy") = true from by decide, if_true,
      show jsTruthy (some "repository:busybox:pull") = true from by decide,
      show ((some "registry.docker.io" : Option String) == some "registry.docker.io") = true
        from by decide, Bool.and_self,
      show rewriteScope001 (jsNullStr (some "repository:busybox:pull"))
        = "repository:library/busybox:pull" from by decide,
      htruthy, Bool.not_true, Bool.false_eq_true, if_false, hparse]
    rfl
  · unfold tokenUrl001
    simp only [show jsTruthy (some "repository:library/busybox:pull") = true from by decide,
      if_true]
    by_cases hsv : strLen sv > 0
    · rw [if_pos hsv]
      exact paramsGet_paramsSet "scope" _ _
    · rw [if_neg hsv]
      exact paramsGet_paramsSet "scope" _ _

/-- A concrete oracle for the auth-relay flow: the discovery ping gets
the standard challenge; everything else gets the token response. -/
def authFlowFetch : Fetch := fun r =>
  if r.url == DOCKER_HUB_URL ++ "/v2/" then
    { status := 401
    , headers := [("WWW-Authenticate",
        "Bearer realm=\"https://auth.docker.io/token\",service=\"registry.docker.io\"")] }
  else { status := 200, body := "tokenresponse" }

/-- A concrete anonymous `/v2/auth` request with the gateway service and
a single-segment repository scope. -/
def c3AuthReq : InRequest :=
  { hostname := "gw.example.com", pathname := "/v2/auth"
  , query := [("service", "cloudflare-docker-proxy"), ("scope", "repository:busybox:pull")] }

/-- Claim C3 witness: the amended theorem at a concrete oracle and
request. -/
theorem claim3_witness :
    handleAuthRequest001 authFlowFetch c3AuthReq
      = some (authFlowFetch (fetchTokenReq "https://auth.docker.io/token" "registry.docker.io"
          (some "repository:library/busybox:pull") none))
    ∧ paramsGet (tokenUrl001 "https://auth.docker.io/token" "registry.docker.io"
          (some "repository:library/busybox:pull")).params "scope"
        = some "repository:library/busybox:pull" :=
  claim3_amended authFlowFetch c3AuthReq "https://auth.docker.io/token" "registry.docker.io"
    (by decide) (by decide) rfl (by decide) (by decide)

/-! ## Claim C7: missing or unparseable upstream challenges -/

/-- An upstream oracle answering 401 with no headers at all. -/
def bare401Fetch : Fetch := fun _ => { status := 401 }

/-- Claim C7 counterexample: when the upstream 401 carries no
`WWW-Authenticate` header at all, the V0 ping relay does NOT surface a
500 - it returns a 401 whose challenge is built from the defaulted
realm, service (`registry.docker.io`) and scope (`repository:*:pull`),
exactly what the claim says never happens. -/
theorem claim7_counterexample :
    (handleApiRequest000 bare401Fetch pingClientReq).status = 401
    ∧ (handleApiRequest000 bare401Fetch pingClientReq).status ≠ 500
    ∧ hGet (handleApiRequest000 bare401Fetch pingClientReq).headers "WWW-Authenticate"
      = some "Bearer realm=\"https://gw.example.com/v2/token\",service=\"registry.docker.io\",scope=\"repository:*:pull\"" := by
  refine ⟨by decide, by decide, by decide⟩

/-- Claim C7 (amended): on the V1 `/v2/auth` relay path the claim holds:
a discovery ping without a truthy `WWW-Authenticate` header produces an
explicit 500 response, and a header the regex cannot parse into at least
realm and service makes `parseAuthenticate` throw - the error escapes
the handler (modelled as `none`; the platform surfaces it as an internal
error) - and in neither case is a defaulted challenge returned. On the
registry 401 relay path, however, `responseUnauthorized` substitutes
defaulted realm/service/scope values and returns a 401, as the
counterexample shows. -/
theorem claim7_amended (fetchFn : Fetch) (req : InRequest) :
    (jsTruthy (hGet (fetchFn authPingReq).headers "WWW-Authenticate") = false →
      ∃ r, handleAuthRequest001 fetchFn req = some r ∧ r.status = 500)
    ∧ (jsTruthy (hGet (fetchFn authPingReq).headers "WWW-Authenticate") = true →
      parseAuthenticate001 (jsNullStr (hGet (fetchFn authPingReq).headers "WWW-Authenticate"))
        = none →
      handleAuthRequest001 fetchFn req = none) := by
  constructor
  · intro htr
    unfold handleAuthRequest001
    simp only [htr, Bool.not_false, if_true]
    exact ⟨_, rfl, rfl⟩
  · intro htr hparse
    unfold handleAuthRequest001
    simp only [htr, Bool.not_true, Bool.false_eq_true, if_false, hparse]

/-- An upstream oracle answering 401 with a challenge the regex cannot
parse (no quoted values). -/
def badHeaderFetch : Fetch := fun _ =>
  { status := 401, headers := [("WWW-Authenticate", "Bearer garbage")] }

/-- Claim C7 witness: the amended theorem at the two concrete failing
oracles. -/
theorem claim7_witness :
    (∃ r, handleAuthRequest001 bare401Fetch c3AuthReq = some r ∧ r.status = 500)
    ∧ handleAuthRequest001 badHeaderFetch c3AuthReq = none :=
  ⟨(claim7_amended bare401Fetch c3AuthReq).1 (by decide),
    (claim7_amended badHeaderFetch c3AuthReq).2 (by decide) (by decide)⟩

/-! ## Claim C5: official-image normalization -/

theorem isPfxOf_cons_cons (a : Char) (as : List Char) (c : Char) (l : List Char) :
    isPfxOf (a :: as) (c :: l) = ((a == c) && isPfxOf as l) := rfl

theorem isPfxOf_head_mismatch {a c : Char} {as l : List Char} (h : (a == c) = false) :
    isPfxOf (a :: as) (c :: l) = false := by
  rw [isPfxOf_cons_cons, h, Bool.false_and]

theorem firstSplitL_isPfx (sep : List Char) : ∀ (l : List Char),
    isPfxOf (firstSplitL sep l) l = true
  | [] => rfl
  | c :: rest => by
    simp only [firstSplitL]
    by_cases h : isPfxOf sep (c :: rest) = true
    · simp only [h, if_true]
      rfl
    · have hf : isPfxOf sep (c :: rest) = false := by simpa using h
      simp only [hf, Bool.false_eq_true, if_false, isPfxOf_cons_cons, beq_self_eq_true,
        Bool.true_and]
      exact firstSplitL_isPfx sep rest

theorem firstSplitL_append_nomatch (sep : List Char) : ∀ (a p : List Char),
    (∀ i, i < a.length → isPfxOf sep (a.drop i ++ p) = false) →
    firstSplitL sep (a ++ p) = a ++ firstSplitL sep p
  | [], _, _ => rfl
  | c :: a, p, h => by
    have h0 : isPfxOf sep ((c :: a) ++ p) = false := h 0 (Nat.succ_pos _)
    show firstSplitL sep (c :: (a ++ p)) = c :: (a ++ firstSplitL sep p)
    simp only [firstSplitL]
    rw [show isPfxOf sep (c :: (a ++ p)) = false from h0]
    simp only [Bool.false_eq_true, if_false]
    rw [firstSplitL_append_nomatch sep a p (fun i hi => h (i + 1) (Nat.succ_lt_succ hi))]

theorem hasSub_of_pfx {sub : List Char} : ∀ {l : List Char},
    isPfxOf sub l = true → hasSub sub l = true := by
  intro l h
  cases l with
  | nil =>
    cases sub with
    | nil => rfl
    | cons s ss => simp [isPfxOf] at h
  | cons c rest => simp [hasSub, h]

theorem hasSub_append_pfx (sub : List Char) : ∀ (a l : List Char),
    isPfxOf sub l = true → hasSub sub (a ++ l) = true
  | [], l, h => hasSub_of_pfx h
  | c :: a, l, h => by
    show hasSub sub (c :: (a ++ l)) = true
    simp [hasSub, hasSub_append_pfx sub a l h]

/-- The eight positions inside `library/` spawn no `/manifests/` or
`/blobs/` occurrence unless the suffix itself begins with `manifests/`
or `blobs/`. -/
theorem library_nomatch_manifests (p : List Char)
    (hm : isPfxOf "manifests/".data p = false) :
    ∀ i, i < "library/".data.length →
      isPfxOf "/manifests/".data ("library/".data.drop i ++ p) = false := by
  intro i hi
  have hi8 : i < 8 := hi
  interval_cases i
  · exact isPfxOf_head_mismatch (by decide)
  · exact isPfxOf_head_mismatch (by decide)
  · exact isPfxOf_head_mismatch (by decide)
  · exact isPfxOf_head_mismatch (by decide)
  · exact isPfxOf_head_mismatch (by decide)
  · exact isPfxOf_head_mismatch (by decide)
  · exact isPfxOf_head_mismatch (by decide)
  · show isPfxOf "/manifests/".data ('/' :: p) = false
    rw [show "/manifests/".data = '/' :: "manifests/".data from rfl, isPfxOf_cons_cons,
      show (('/' : Char) == '/') = true from rfl, Bool.true_and]
    exact hm

theorem library_nomatch_blobs (p : List Char)
    (hb : isPfxOf "blobs/".data p = false) :
    ∀ i, i < "library/".data.length →
      isPfxOf "/blobs/".data ("library/".data.drop i ++ p) = false := by
  intro i hi
  have hi8 : i < 8 := hi
  interval_cases i
  · exact isPfxOf_head_mismatch (by decide)
  · exact isPfxOf_head_mismatch (by decide)
  · exact isPfxOf_head_mismatch (by decide)
  · exact isPfxOf_head_mismatch (by decide)
  · exact isPfxOf_head_mismatch (by decide)
  · exact isPfxOf_head_mismatch (by decide)
  · exact isPfxOf_head_mismatch (by decide)
  · show isPfxOf "/blobs/".data ('/' :: p) = false
    rw [show "/blobs/".data = '/' :: "blobs/".data from rfl, isPfxOf_cons_cons,
      show (('/' : Char) == '/') = true from rfl, Bool.true_and]
    exact hb

theorem smk_data_eq (l : List Char) : (String.mk l).data = l := rfl

theorem hubRepoName_library (p : String)
    (hm : isPfxOf "manifests/".data p.data = false)
    (hb : isPfxOf "blobs/".data p.data = false) :
    (hubRepoName ("library/" ++ p)).data = "library/".data ++ (hubRepoName p).data := by
  have hXpfx := firstSplitL_isPfx "/manifests/".data p.data
  have hbX : isPfxOf "blobs/".data (firstSplitL "/manifests/".data p.data) = false := by
    cases hx : isPfxOf "blobs/".data (firstSplitL "/manifests/".data p.data) with
    | false => rfl
    | true =>
      have htr := isPfxOf_trans hx hXpfx
      rw [htr] at hb
      cases hb
  unfold hubRepoName splitFirst
  simp only [smk_data_eq, sdata_append]
  rw [firstSplitL_append_nomatch "/manifests/".data "library/".data p.data
    (library_nomatch_manifests p.data hm)]
  rw [firstSplitL_append_nomatch "/blobs/".data "library/".data
    (firstSplitL "/manifests/".data p.data) (library_nomatch_blobs _ hbX)]

/-- Claim C5 counterexample: V0 normalization, as implemented, produces
`library/library/...` for the legitimate single-segment repository named
`library`, and is not idempotent on paths whose text begins with
`manifests/` (the prepended `library/` creates a fresh `/manifests/`
boundary), refuting the claim that `library/library/...` is never
produced and that normalization is idempotent on all inputs. -/
theorem claim5_counterexample :
    normalizeDockerHubPath "library/manifests/latest" = "library/library/manifests/latest"
    ∧ normalizeDockerHubPath (normalizeDockerHubPath "manifests/manifests/x")
        ≠ normalizeDockerHubPath "manifests/manifests/x" := by
  refine ⟨by decide, by decide⟩

/-- Claim C5 (amended): for every image path that does not itself begin
with the text `manifests/` or `blobs/`, V0 normalization is idempotent;
a repository part without `/` and `:` (and non-empty) gets `library/`
prepended, an already-namespaced or digest-qualified repository part is
left unchanged, and normalizing `busybox` and `library/busybox` yields
the same final path; the V1 redirect variant never fires on a path
already under `library/`. (Per the counterexample, idempotence fails on
`manifests/...`-shaped paths and a repository part equal to `library`
legitimately yields `library/library/...`.) -/
theorem claim5_amended (p : String)
    (hm : isPfxOf "manifests/".data p.data = false)
    (hb : isPfxOf "blobs/".data p.data = false) :
    normalizeDockerHubPath (normalizeDockerHubPath p) = normalizeDockerHubPath p
    ∧ (officialImageCond (hubRepoName p) = true → normalizeDockerHubPath p = "library/" ++ p)
    ∧ (jsIncludes (hubRepoName p) "/" = true ∨ jsIncludes (hubRepoName p) ":" = true →
        normalizeDockerHubPath p = p)
    ∧ shouldRedirectLibrary001 ("library/" ++ p) = false
    ∧ normalizeDockerHubPath "busybox" = "library/busybox"
    ∧ normalizeDockerHubPath "busybox/manifests/latest"
        = normalizeDockerHubPath "library/busybox/manifests/latest" := by
  refine ⟨?_, ?_, ?_, ?_, by decide, by decide⟩
  · by_cases hc : officialImageCond (hubRepoName p) = true
    · have h1 : normalizeDockerHubPath p = "library/" ++ p := by
        unfold normalizeDockerHubPath
        simp [hc]
      rw [h1]
      have hincl : jsIncludes (hubRepoName ("library/" ++ p)) "/" = true := by
        unfold jsIncludes
        rw [hubRepoName_library p hm hb]
        show hasSub "/".data ("library".data ++ ('/' :: (hubRepoName p).data)) = true
        exact hasSub_append_pfx _ _ _ (by rfl)
      have hcc : officialImageCond (hubRepoName ("library/" ++ p)) = false := by
        unfold officialImageCond
        rw [hincl]
        simp
      unfold normalizeDockerHubPath
      simp [hcc]
    · have hcf : officialImageCond (hubRepoName p) = false := by simpa using hc
      have h1 : normalizeDockerHubPath p = p := by
        unfold normalizeDockerHubPath
        simp [hcf]
      rw [h1, h1]
  · intro hc
    unfold normalizeDockerHubPath
    simp [hc]
  · intro hinc
    have hcf : officialImageCond (hubRepoName p) = false := by
      unfold officialImageCond
      rcases hinc with h | h <;> rw [h] <;> simp
    unfold normalizeDockerHubPath
    simp [hcf]
  · simp only [shouldRedirectLibrary001, jsSplitChar, sdata_append]
    rw [show splitCharL '/' ("library/".data ++ p.data)
      = "library".data :: splitCharL '/' p.data from rfl]
    simp only [List.map_cons]
    rw [show (String.mk "library".data) = "library" from rfl]
    simp [List.getD_cons_zero]

/-- Claim C5 witness: the amended theorem at the canonical single-segment
manifest path. -/
theorem claim5_witness :
    normalizeDockerHubPath (normalizeDockerHubPath "busybox/manifests/latest")
      = normalizeDockerHubPath "busybox/manifests/latest"
    ∧ normalizeDockerHubPath "busybox/manifests/latest"
      = "library/" ++ "busybox/manifests/latest" := by
  have h := claim5_amended "busybox/manifests/latest" (by decide) (by decide)
  exact ⟨h.1, h.2.1 (by decide)⟩

/-! ## Claim C8: the header filter never forwards outside the union -/

theorem hSet_mem {hs : HeaderList} {n v : String} {p : String × String}
    (hp : p ∈ hSet hs n v) : p ∈ hs ∨ p = (n, v) := by
  unfold hSet at hp
  rcases List.mem_append.mp hp with h | h
  · exact Or.inl (List.mem_filter.mp h).1
  · simp only [List.mem_singleton] at h
    exact Or.inr h

theorem filterFold_inv (combined target : List String)
    (hsub : ∀ s : String, combined.contains s = true → s ∈ target) :
    ∀ (l : HeaderList) (acc : HeaderList), (∀ q ∈ acc, lowerStr q.1 ∈ target) →
    ∀ p ∈ l.foldl (fun acc kv =>
        if combined.contains (lowerStr kv.1) then hSet acc kv.1 kv.2 else acc) acc,
    lowerStr p.1 ∈ target
  | [], _, hacc, p, hp => hacc p hp
  | kv :: l, acc, hacc, p, hp => by
    by_cases hc : combined.contains (lowerStr kv.1) = true
    · refine filterFold_inv combined target hsub l (hSet acc kv.1 kv.2) ?_ p
        (by simpa only [List.foldl_cons, hc, if_true] using hp)
      intro q hq
      rcases hSet_mem hq with h | h
      · exact hacc q h
      · rw [h]
        exact hsub _ hc
    · have hcf : combined.contains (lowerStr kv.1) = false := by simpa using hc
      exact filterFold_inv combined target hsub l acc hacc p
        (by simpa only [List.foldl_cons, hcf, Bool.false_eq_true, if_false] using hp)

theorem phase1Fold_inv (target : List String) (hs : HeaderList) :
    ∀ (keys : List String) (acc : HeaderList),
    (∀ k ∈ keys, lowerStr k ∈ target) →
    (∀ q ∈ acc, lowerStr q.1 ∈ target) →
    ∀ p ∈ keys.foldl (fun acc key =>
        if hHas hs (lowerStr key) then hSet acc key ((hGet hs (lowerStr key)).getD "") else acc)
      acc,
    lowerStr p.1 ∈ target
  | [], _, _, hacc, p, hp => hacc p hp
  | key :: keys, acc, hkeys, hacc, p, hp => by
    have hstep : ∀ q ∈ (if hHas hs (lowerStr key) then
        hSet acc key ((hGet hs (lowerStr key)).getD "") else acc), lowerStr q.1 ∈ target := by
      intro q hq
      by_cases hc : hHas hs (lowerStr key) = true
      · rcases hSet_mem (by simpa only [hc, if_true] using hq) with h | h
        · exact hacc q h
        · rw [h]
          exact hkeys key (List.mem_cons_self _ _)
      · have hcf : hHas hs (lowerStr key) = false := by simpa using hc
        exact hacc q (by simpa only [hcf, Bool.false_eq_true, if_false] using hq)
    exact phase1Fold_inv target hs keys _
      (fun k hk => hkeys k (List.mem_cons_of_mem _ hk)) hstep p
      (by simpa only [List.foldl_cons] using hp)

/-- Claim C8: for every inbound header set, the V0 generic-forwarder
filter and the Src filter forward no header whose lowercased name is
outside the fixed default set united with the per-target allow-list;
every name outside that union is absent from the outbound set. -/
theorem claim8_filter (allowed : List String) (hs : HeaderList) (p : String × String) :
    (p ∈ filterHeaders000 allowed hs → lowerStr p.1 ∈ DEFAULT_HEADERS ++ allowed)
    ∧ (p ∈ filterHeadersSrc allowed hs → lowerStr p.1 ∈ DEFAULT_HEADERS ++ allowed)
    ∧ (∀ name : String, lowerStr name ∉ DEFAULT_HEADERS ++ allowed →
        hGet (filterHeaders000 allowed hs) name = none) := by
  have hmem000 : ∀ q ∈ filterHeaders000 allowed hs,
      lowerStr q.1 ∈ DEFAULT_HEADERS ++ allowed := by
    intro q hq
    exact filterFold_inv (DEFAULT_HEADERS ++ allowed) (DEFAULT_HEADERS ++ allowed)
      (fun s h => List.mem_of_elem_eq_true h) hs [] (by intro q hq; cases hq) q hq
  refine ⟨fun hp => hmem000 p hp, ?_, ?_⟩
  · intro hp
    unfold filterHeadersSrc at hp
    refine filterFold_inv allowed (DEFAULT_HEADERS ++ allowed)
      (fun s h => List.mem_append_right _ (List.mem_of_elem_eq_true h)) hs _ ?_ p hp
    intro q hq
    refine phase1Fold_inv (DEFAULT_HEADERS ++ allowed) hs srcForwardKeys [] ?_
      (by intro r hr; cases hr) q hq
    intro k hk
    refine List.mem_append_left _ ?_
    fin_cases hk <;> decide
  · intro name hname
    unfold hGet
    rw [List.find?_eq_none.mpr]
    · rfl
    · intro q hq hmatch
      have hql : lowerStr q.1 = lowerStr name := by simpa using hmatch
      exact hname (hql ▸ hmem000 q hq)

/-- Claim C8 witness: the filter theorem at a concrete header set: the
forwarded `Content-Type` name is inside the union, and the `Cookie`
header is dropped. -/
theorem claim8_witness :
    lowerStr ("Content-Type", "json").1 ∈ DEFAULT_HEADERS ++ ["anthropic-version"]
    ∧ hGet (filterHeaders000 ["anthropic-version"]
        [("Content-Type", "json"), ("Cookie", "secret"), ("Anthropic-Version", "1")]) "Cookie"
      = none :=
  ⟨(claim8_filter ["anthropic-version"]
      [("Content-Type", "json"), ("Cookie", "secret"), ("Anthropic-Version", "1")]
      ("Content-Type", "json")).1 (by decide),
    (claim8_filter ["anthropic-version"]
      [("Content-Type", "json"), ("Cookie", "secret"), ("Anthropic-Version", "1")]
      ("Content-Type", "json")).2.2 "Cookie" (by decide)⟩

end CfProxy
